import Mathlib

/-!
Verification development for the TLDW-bilibili web application.

The definitions below are shallow embeddings of the repository's source:
* `src/lib/bilibili-client.ts` (subtitle conversion),
* the `/api/transcript` route handler (segment transformation),
* `src/supabase/migrations/20241114000000_add_bilibili_support.sql`
  (the `bilibili_video_analyses` table, its check constraint and the
  `upsert_bilibili_video_analysis` stored procedure),
* `src/lib/utils.ts` (`extractVideoId`, `detectPlatform`) and
  `src/lib/bilibili-client.ts` (`extractBilibiliVideoId`),
* the `/api/check-video-cache` and `/api/video-info` route handlers,
* the analyze-page orchestration in `src/app/analyze/[videoId]/page.tsx`
  (`processVideo`, `checkGenerationLimit`, `handleThemeSelect`).

JavaScript numbers that hold subtitle timestamps are modelled as `ℚ`;
nullable SQL columns and optional JSON fields as `Option`; JSON payloads
whose contents the code never inspects as opaque type parameters.
-/

/-! ## Bilibili subtitle conversion (`src/lib/bilibili-client.ts`) -/

/-- One entry of a Bilibili subtitle body: `{ from, to, content, location }`. -/
structure SubtitleItem where
  «from» : ℚ
  «to» : ℚ
  content : String
  location : Int
  deriving DecidableEq, Repr

/-- `BilibiliSubtitleData` from `bilibili-client.ts`: a `body` array. -/
structure BilibiliSubtitleData where
  body : List SubtitleItem
  deriving DecidableEq, Repr

/-- A transcript segment `{ text, start, duration }`. -/
structure TranscriptSegment where
  text : String
  start : ℚ
  duration : ℚ
  deriving DecidableEq, Repr

/-- `convertSubtitlesToTranscript` (bilibili-client.ts lines 224-237):
maps each `{from, to, content}` to `{text := content, start := from,
duration := to - from}` in order. -/
def convertSubtitlesToTranscript (subtitleData : BilibiliSubtitleData) :
    List TranscriptSegment :=
  subtitleData.body.map (fun item =>
    { text := item.content
      start := item.«from»
      duration := item.«to» - item.«from» })

/-- JavaScript `a || b` on numbers restricted to the values that occur here:
`a` when `a` is truthy (non-zero), else `b`. -/
def jsOrQ (a b : ℚ) : ℚ := if a = 0 then b else a

/-- JavaScript `a || b` on strings: `a` when non-empty, else `b`. -/
def jsOrString (a b : String) : String := if a = "" then b else a

/-- The per-item transformation of the `/api/transcript` handler
(`src/unnamed/part_000` lines 261-268), specialised to the items produced by
`convertSubtitlesToTranscript` on the Bilibili path (which carry `text`,
`start` and `duration` fields and no `offset`/`content` field):
`text := item.text || item.content || ''` (here `item.content` is undefined),
`start := item.start || 0` (no `offset`), and — the interesting line —
`duration := item.duration !== undefined ? item.duration / 1000 : 0`. -/
def transformTranscriptItem (item : TranscriptSegment) : TranscriptSegment :=
  { text := jsOrString item.text ""
    start := jsOrQ item.start 0
    duration := jsOrQ (item.duration / 1000) 0 }

/-- The transcript the `/api/transcript` endpoint returns for a Bilibili
video: `convertSubtitlesToTranscript` followed by the handler's map. -/
def bilibiliEndpointTranscript (subtitleData : BilibiliSubtitleData) :
    List TranscriptSegment :=
  (convertSubtitlesToTranscript subtitleData).map transformTranscriptItem

/-! ## The Bilibili analysis cache
(`supabase/migrations/20241114000000_add_bilibili_support.sql`) -/

/-- A row of `public.bilibili_video_analyses`.  `J` stands for `jsonb`
payloads; nullable columns are `Option`; timestamps are abstract ticks. -/
structure BiliRow (J : Type) where
  id : Nat
  bvid : Option String
  aid : Option String
  title : String
  author : Option String
  duration : Int
  thumbnail_url : Option String
  transcript : J
  topics : Option J
  summary : Option J
  suggested_questions : Option J
  model_used : Option String
  created_at : Nat
  updated_at : Nat
  deriving DecidableEq, Repr

/-- The table's check constraint `bilibili_video_analyses_bvid_aid_check`
(migration lines 30-34), transcribed disjunct by disjunct. -/
def bvidAidCheck {J : Type} (r : BiliRow J) : Bool :=
  (r.bvid.isSome && r.aid.isNone) ||
  (r.bvid.isNone && r.aid.isSome) ||
  (r.bvid.isSome && r.aid.isSome)

/-- The property the spec asserts the constraint enforces: exactly one of
the two video-ID columns populated. -/
def exactlyOneIdPopulated {J : Type} (r : BiliRow J) : Bool :=
  (r.bvid.isSome && r.aid.isNone) || (r.bvid.isNone && r.aid.isSome)

/-- SQL `COALESCE(a, b)`. -/
def coalesce {J : Type} (a b : Option J) : Option J := a <|> b

/-- The `ON CONFLICT (bvid) DO UPDATE SET` clause of
`upsert_bilibili_video_analysis` (migration lines 111-115): merge the three
AI-content columns with `COALESCE(EXCLUDED.x, old.x)` and refresh
`updated_at`; every other column keeps its stored value. -/
def mergeOnConflict {J : Type} (now : Nat)
    (p_topics p_summary p_suggested_questions : Option J)
    (r : BiliRow J) : BiliRow J :=
  { r with
    topics := coalesce p_topics r.topics
    summary := coalesce p_summary r.summary
    suggested_questions := coalesce p_suggested_questions r.suggested_questions
    updated_at := now }

/-- Update the first row satisfying `p` (there is at most one matching row
under the `bvid` unique constraint). -/
def updateFirst {α : Type} (p : α → Bool) (f : α → α) : List α → List α
  | [] => []
  | r :: rs => if p r then f r :: rs else r :: updateFirst p f rs

/-- `public.upsert_bilibili_video_analysis` (migration lines 60-120).
Raises when both IDs are null; otherwise inserts a fresh row, and on a
`bvid` uniqueness conflict (only possible for a non-null `p_bvid`) applies
the `DO UPDATE` merge instead.  `newId`/`now` stand for `uuid_generate_v4()`
and `timezone('utc', now())`. -/
def upsert_bilibili_video_analysis {J : Type} (newId now : Nat)
    (p_bvid p_aid : Option String) (p_title : String) (p_author : Option String)
    (p_duration : Int) (p_thumbnail_url : Option String) (p_transcript : J)
    (p_topics p_summary p_suggested_questions : Option J)
    (p_model_used : Option String)
    (table : List (BiliRow J)) : Except String (List (BiliRow J)) :=
  if p_bvid = none ∧ p_aid = none then
    .error "Either bvid or aid must be provided"
  else if p_bvid.isSome && table.any (fun r => r.bvid == p_bvid) then
    .ok (updateFirst (fun r => r.bvid == p_bvid)
      (mergeOnConflict now p_topics p_summary p_suggested_questions) table)
  else
    .ok (table ++ [{ id := newId
                     bvid := p_bvid
                     aid := p_aid
                     title := p_title
                     author := p_author
                     duration := p_duration
                     thumbnail_url := p_thumbnail_url
                     transcript := p_transcript
                     topics := p_topics
                     summary := p_summary
                     suggested_questions := p_suggested_questions
                     model_used := p_model_used
                     created_at := now
                     updated_at := now }])

/-! ## Theorems: subtitle conversion and the transcript endpoint (C3) -/

/-- Library-level mapping: `convertSubtitlesToTranscript` sends the `i`-th
body entry to `{text := content, start := from, duration := to - from}`,
in the order of the body. -/
theorem convertSubtitlesToTranscript_maps (d : BilibiliSubtitleData) (i : Nat)
    (h : i < d.body.length) :
    (convertSubtitlesToTranscript d).length = d.body.length ∧
    (convertSubtitlesToTranscript d).get
        ⟨i, by simpa [convertSubtitlesToTranscript] using h⟩ =
      { text := (d.body.get ⟨i, h⟩).content
        start := (d.body.get ⟨i, h⟩).«from»
        duration := (d.body.get ⟨i, h⟩).«to» - (d.body.get ⟨i, h⟩).«from» } := by
  constructor
  · simp [convertSubtitlesToTranscript]
  · simp [convertSubtitlesToTranscript, List.get_eq_getElem]

/-- Claim C3: at the `/api/transcript` endpoint the claimed mapping breaks.
`convertSubtitlesToTranscript` yields `duration = to - from` in seconds, but
the handler's subsequent map divides that value by 1000 (its "convert
milliseconds to seconds" branch fires because the segment has a `duration`
field), so a `{from := 0, to := 2}` entry is served with duration `1/500`
of a second instead of `2` seconds. -/
theorem bilibili_transcript_duration_bug :
    convertSubtitlesToTranscript ⟨[⟨0, 2, "你好", 0⟩]⟩ =
      [{ text := "你好", start := 0, duration := 2 }] ∧
    bilibiliEndpointTranscript ⟨[⟨0, 2, "你好", 0⟩]⟩ =
      [{ text := "你好", start := 0, duration := 1/500 }] ∧
    ((1 : ℚ)/500) ≠ 2 := by
  refine ⟨?_, ?_, ?_⟩ <;>
    norm_num [bilibiliEndpointTranscript, convertSubtitlesToTranscript,
      transformTranscriptItem, jsOrQ, jsOrString, String.ext_iff]

/-! ## Theorems: cache upsert (C1) and the check constraint (C2) -/

/-- `updateFirst` rewrites exactly the designated row when everything before
it fails the predicate. -/
theorem updateFirst_append {α : Type} (p : α → Bool) (f : α → α)
    (pre post : List α) (r : α) (hpre : ∀ x ∈ pre, p x = false)
    (hr : p r = true) :
    updateFirst p f (pre ++ r :: post) = pre ++ f r :: post := by
  induction pre with
  | nil => simp [updateFirst, hr]
  | cons a l ih =>
      have ha := hpre a (by simp)
      simp only [List.cons_append, updateFirst, ha]
      simp only [Bool.false_eq_true, if_false, List.cons.injEq, true_and]
      exact ih (fun x hx => hpre x (by simp [hx]))

/-- An upsert targeting an existing `bvid` merges that row in place. -/
theorem upsert_conflict_eq {J : Type} {newId now : Nat}
    {pre post : List (BiliRow J)} {r : BiliRow J} {b : String}
    {p_aid : Option String} {p_title : String} {p_author : Option String}
    {p_duration : Int} {p_thumbnail_url : Option String} {p_transcript : J}
    {pt ps pq : Option J} {p_model_used : Option String}
    (hpre : ∀ r' ∈ pre, r'.bvid ≠ some b) (hr : r.bvid = some b) :
    upsert_bilibili_video_analysis newId now (some b) p_aid p_title p_author
        p_duration p_thumbnail_url p_transcript pt ps pq p_model_used
        (pre ++ r :: post) =
      .ok (pre ++ mergeOnConflict now pt ps pq r :: post) := by
  have hany : (pre ++ r :: post).any (fun x => x.bvid == some b) = true := by
    simp [List.any_append, hr]
  rw [upsert_bilibili_video_analysis]
  rw [if_neg (by simp)]
  rw [if_pos (by simp [hany])]
  congr 1
  exact updateFirst_append _ _ pre post r
    (fun x hx => by simp [hpre x hx]) (by simp [hr])

/-- Rows of `updateFirst p f l` come from `l`, possibly through `f`. -/
theorem mem_updateFirst {α : Type} {p : α → Bool} {f : α → α} {l : List α}
    {x : α} (hx : x ∈ updateFirst p f l) : x ∈ l ∨ ∃ y ∈ l, x = f y := by
  induction l with
  | nil => simp [updateFirst] at hx
  | cons a l ih =>
      by_cases ha : p a = true
      · simp only [updateFirst, ha, if_true] at hx
        rcases List.mem_cons.mp hx with h | h
        · exact Or.inr ⟨a, by simp, h⟩
        · exact Or.inl (by simp [h])
      · simp only [updateFirst, ha, if_false] at hx
        rcases List.mem_cons.mp hx with h | h
        · exact Or.inl (by simp [h])
        · rcases ih h with h' | ⟨y, hy, hxy⟩
          · exact Or.inl (by simp [h'])
          · exact Or.inr ⟨y, by simp [hy], hxy⟩

/-- Claim C1: the Bilibili cache upsert merges rather than overwrites.  On a
`bvid` conflict the matching row is merged in place; a null argument
preserves the stored value of each mergeable column and a non-null argument
overwrites it; and running the same `(bvid, topics := null, summary := X)`
upsert twice leaves `summary = X` while the previously stored `topics`
survives (idempotence up to `updated_at`). -/
theorem upsert_merge_semantics {J : Type} (newId newId' now now' : Nat)
    (pre post : List (BiliRow J)) (r : BiliRow J) (b : String)
    (p_aid : Option String) (p_title : String) (p_author : Option String)
    (p_duration : Int) (p_thumbnail_url : Option String) (p_transcript : J)
    (pt ps pq : Option J) (p_model_used : Option String)
    (hpre : ∀ r' ∈ pre, r'.bvid ≠ some b) (hr : r.bvid = some b) :
    (upsert_bilibili_video_analysis newId now (some b) p_aid p_title p_author
        p_duration p_thumbnail_url p_transcript pt ps pq p_model_used
        (pre ++ r :: post) =
      .ok (pre ++ mergeOnConflict now pt ps pq r :: post)) ∧
    (pt = none → (mergeOnConflict now pt ps pq r).topics = r.topics) ∧
    (∀ t, pt = some t → (mergeOnConflict now pt ps pq r).topics = some t) ∧
    (ps = none → (mergeOnConflict now pt ps pq r).summary = r.summary) ∧
    (∀ t, ps = some t → (mergeOnConflict now pt ps pq r).summary = some t) ∧
    (pq = none →
      (mergeOnConflict now pt ps pq r).suggested_questions =
        r.suggested_questions) ∧
    (∀ t, pq = some t →
      (mergeOnConflict now pt ps pq r).suggested_questions = some t) ∧
    (∀ X : J,
      upsert_bilibili_video_analysis newId now (some b) p_aid p_title p_author
          p_duration p_thumbnail_url p_transcript none (some X) pq p_model_used
          (pre ++ r :: post) =
        .ok (pre ++ mergeOnConflict now none (some X) pq r :: post) ∧
      upsert_bilibili_video_analysis newId' now' (some b) p_aid p_title p_author
          p_duration p_thumbnail_url p_transcript none (some X) pq p_model_used
          (pre ++ mergeOnConflict now none (some X) pq r :: post) =
        .ok (pre ++
          mergeOnConflict now' none (some X) pq
            (mergeOnConflict now none (some X) pq r) :: post) ∧
      (mergeOnConflict now' none (some X) pq
        (mergeOnConflict now none (some X) pq r)).summary = some X ∧
      (mergeOnConflict now' none (some X) pq
        (mergeOnConflict now none (some X) pq r)).topics = r.topics) := by
  refine ⟨upsert_conflict_eq hpre hr, ?_, ?_, ?_, ?_, ?_, ?_, ?_⟩
  · intro h; simp [mergeOnConflict, coalesce, h]
  · intro t h; simp [mergeOnConflict, coalesce, h]
  · intro h; simp [mergeOnConflict, coalesce, h]
  · intro t h; simp [mergeOnConflict, coalesce, h]
  · intro h; simp [mergeOnConflict, coalesce, h]
  · intro t h; simp [mergeOnConflict, coalesce, h]
  · intro X
    refine ⟨upsert_conflict_eq hpre hr,
      upsert_conflict_eq hpre (by simp [mergeOnConflict, hr]), ?_, ?_⟩
    · simp [mergeOnConflict, coalesce]
    · simp [mergeOnConflict, coalesce]

/-- A concrete stored row used to instantiate the upsert theorems. -/
def c1Row : BiliRow String :=
  { id := 0, bvid := some "BV1", aid := none, title := "t", author := none
    duration := 10, thumbnail_url := none, transcript := "tr"
    topics := some "oldTopics", summary := none, suggested_questions := none
    model_used := none, created_at := 0, updated_at := 0 }

/-- Witness for `upsert_merge_semantics` at a concrete one-row table. -/
theorem upsert_merge_semantics_witness :
    (∀ r' ∈ ([] : List (BiliRow String)), r'.bvid ≠ some "BV1") ∧
    c1Row.bvid = some "BV1" ∧
    upsert_bilibili_video_analysis 7 5 (some "BV1") none "t" none 10 none "tr"
        none (some "sum") none none [c1Row] =
      .ok [mergeOnConflict 5 none (some "sum") none c1Row] ∧
    (mergeOnConflict 5 none (some "sum") none c1Row).topics =
      some "oldTopics" ∧
    (mergeOnConflict 5 none (some "sum") none c1Row).summary = some "sum" := by
  have h := upsert_merge_semantics 7 8 5 6 [] [] c1Row "BV1" none "t" none 10
    none "tr" none (some "sum") none none (by simp) rfl
  refine ⟨by simp, rfl, by simpa using h.1, ?_, ?_⟩
  · have := h.2.1 rfl
    simpa [c1Row] using this
  · exact h.2.2.2.2.1 "sum" rfl

/-- The row the check-constraint counterexample exhibits: both video-ID
columns populated. -/
def c2Row : BiliRow Unit :=
  { id := 1, bvid := some "BV1xx411c7mD", aid := some "170001", title := "t"
    author := none, duration := 60, thumbnail_url := none, transcript := ()
    topics := none, summary := none, suggested_questions := none
    model_used := none, created_at := 0, updated_at := 0 }

/-- Claim C2, counterexample: the check constraint's third disjunct accepts a
row with `bvid` and `aid` both non-null, and such a row is reachable through
`upsert_bilibili_video_analysis`; so the constraint does not enforce
"exactly one video-ID column populated". -/
theorem bvid_aid_check_counterexample :
    upsert_bilibili_video_analysis 1 0 (some "BV1xx411c7mD") (some "170001")
      "t" none 60 none () none none none none ([] : List (BiliRow Unit)) =
      .ok [c2Row] ∧
    bvidAidCheck c2Row = true ∧ exactlyOneIdPopulated c2Row = false := by
  refine ⟨?_, by decide, by decide⟩
  rfl

/-- Claim C2, amended: the check constraint enforces that at least one (not
exactly one) of `bvid`, `aid` is non-null — no row has both null, but a row
may have both populated — and every table produced by the upsert from a
constraint-satisfying table still satisfies the constraint. -/
theorem upsert_preserves_check {J : Type} {newId now : Nat}
    {p_bvid p_aid : Option String} {p_title : String} {p_author : Option String}
    {p_duration : Int} {p_thumbnail_url : Option String} {p_transcript : J}
    {pt ps pq : Option J} {p_model_used : Option String}
    {table table' : List (BiliRow J)}
    (hinv : ∀ r ∈ table, bvidAidCheck r = true)
    (hok : upsert_bilibili_video_analysis newId now p_bvid p_aid p_title
      p_author p_duration p_thumbnail_url p_transcript pt ps pq p_model_used
      table = .ok table') :
    (∀ r ∈ table', bvidAidCheck r = true) ∧
    (∀ r : BiliRow J, bvidAidCheck r = true ↔ (r.bvid.isSome ∨ r.aid.isSome)) := by
  constructor
  · rw [upsert_bilibili_video_analysis] at hok
    by_cases hboth : p_bvid = none ∧ p_aid = none
    · simp [hboth] at hok
    · rw [if_neg hboth] at hok
      by_cases hconf : (p_bvid.isSome && table.any fun r => r.bvid == p_bvid) = true
      · rw [if_pos hconf] at hok
        injection hok with hok
        subst hok
        intro r hrmem
        rcases mem_updateFirst hrmem with h | ⟨y, hy, hxy⟩
        · exact hinv r h
        · have := hinv y hy
          subst hxy
          revert this
          cases hby : y.bvid <;> cases hay : y.aid <;>
            simp [bvidAidCheck, mergeOnConflict, hby, hay]
      · rw [if_neg hconf] at hok
        injection hok with hok
        subst hok
        intro r hrmem
        rcases List.mem_append.mp hrmem with h | h
        · exact hinv r h
        · simp only [List.mem_singleton] at h
          subst h
          rcases Option.eq_none_or_eq_some p_bvid with hb | ⟨vb, hb⟩ <;>
            rcases Option.eq_none_or_eq_some p_aid with ha | ⟨va, ha⟩ <;>
            simp [bvidAidCheck, hb, ha] at hboth ⊢
  · intro r
    cases hb : r.bvid <;> cases ha : r.aid <;> simp [bvidAidCheck, hb, ha]

/-- Witness for `upsert_preserves_check` on the empty table. -/
theorem upsert_preserves_check_witness :
    (∀ r ∈ ([] : List (BiliRow Unit)), bvidAidCheck r = true) ∧
    (∀ r ∈ [c2Row], bvidAidCheck r = true) := by
  refine ⟨by simp, ?_⟩
  exact (upsert_preserves_check (by simp) (rfl :
    upsert_bilibili_video_analysis 1 0 (some "BV1xx411c7mD") (some "170001")
      "t" none 60 none () none none none none ([] : List (BiliRow Unit)) =
      .ok [c2Row])).1


/-! ## URL platform detection and video-ID extraction
(`src/lib/utils.ts`, `src/lib/bilibili-client.ts`)

`extractVideoId` matches a JavaScript regular expression against the URL.
The embedding below implements those exact regexes over `List Char` with
JavaScript semantics: leftmost match, greedy quantifiers with backtracking
(continuation-passing style), `.` excluding line terminators, `\s` the JS
whitespace class, and the `/i` flag realised by ASCII case folding.  Each
pattern ends with its single capture group, so a matcher returns the
captured characters. -/

def jsWhitespace (c : Char) : Bool :=
  c = '\t' || c = '\n' || c = Char.ofNat 11 || c = Char.ofNat 12 || c = '\r' ||
  c = ' ' || c = Char.ofNat 0xA0 || c = Char.ofNat 0x1680 ||
  (Char.ofNat 0x2000 ≤ c && c ≤ Char.ofNat 0x200A) ||
  c = Char.ofNat 0x2028 || c = Char.ofNat 0x2029 || c = Char.ofNat 0x202F ||
  c = Char.ofNat 0x205F || c = Char.ofNat 0x3000 || c = Char.ofNat 0xFEFF

def isLineTerm (c : Char) : Bool :=
  c = '\n' || c = '\r' || c = Char.ofNat 0x2028 || c = Char.ofNat 0x2029

def ytIdChar (c : Char) : Bool :=
  !(c = '"' || c = '&' || c = '?' || c = '/' || jsWhitespace c)

def lowerPairs : List (Char × Char) :=
  [('A','a'), ('B','b'), ('C','c'), ('D','d'), ('E','e'), ('F','f'), ('G','g'),
   ('H','h'), ('I','i'), ('J','j'), ('K','k'), ('L','l'), ('M','m'), ('N','n'),
   ('O','o'), ('P','p'), ('Q','q'), ('R','r'), ('S','s'), ('T','t'), ('U','u'),
   ('V','v'), ('W','w'), ('X','x'), ('Y','y'), ('Z','z')]

def lowerAscii (c : Char) : Char :=
  ((lowerPairs.find? (fun q => q.1 == c)).map (fun q => q.2)).getD c

def charEq (ci : Bool) (c p : Char) : Bool :=
  if ci then lowerAscii c = lowerAscii p else c = p

def litMatch (ci : Bool) : List Char → List Char → Option (List Char)
  | [], l => some l
  | _ :: _, [] => none
  | p :: ps, c :: cs => if charEq ci c p then litMatch ci ps cs else none

def isAsciiAlnum (c : Char) : Bool :=
  ('a' ≤ c && c ≤ 'z') || ('A' ≤ c && c ≤ 'Z') || ('0' ≤ c && c ≤ '9')

def isDigitChar (c : Char) : Bool := '0' ≤ c && c ≤ '9'

/-! ### Character-class lemmas -/

theorem lowerAscii_spec (c : Char) :
    lowerAscii c = c ∨ (c, lowerAscii c) ∈ lowerPairs := by
  unfold lowerAscii
  cases hf : lowerPairs.find? (fun q => q.1 == c) with
  | none => simp
  | some q =>
      right
      have hmem := List.mem_of_find?_eq_some hf
      have hpred := List.find?_some hf
      simp only [beq_iff_eq] at hpred
      have he : (c, q.2) = q := by rw [← hpred]
      simpa [Option.getD, he] using hmem

theorem charEq_self (ci : Bool) (c : Char) : charEq ci c c = true := by
  cases ci <;> simp [charEq]

theorem charEq_false_of_ne {c p : Char} (h : c ≠ p) : charEq false c p = false := by
  simp [charEq, h]

theorem alnum_ne_dot {c : Char} (h : isAsciiAlnum c = true) : c ≠ '.' := by
  intro he
  subst he
  exact absurd h (by decide)

theorem pair_snd_ne_dot : ∀ q ∈ lowerPairs, q.2 ≠ '.' := by decide

theorem charEq_alnum_dot {ci : Bool} {c : Char} (h : isAsciiAlnum c = true) :
    charEq ci c '.' = false := by
  cases ci with
  | false => exact charEq_false_of_ne (alnum_ne_dot h)
  | true =>
      have hdot : lowerAscii '.' = '.' := rfl
      simp only [charEq, if_true, hdot, decide_eq_false_iff_not]
      rcases lowerAscii_spec c with hc | hc
      · rw [hc]; exact alnum_ne_dot h
      · exact pair_snd_ne_dot _ hc

theorem pair_fst_not_digit : ∀ q ∈ lowerPairs, isDigitChar q.1 = false := by decide

theorem digit_lowerAscii_eq {c : Char} (h : isDigitChar c = true) :
    lowerAscii c = c := by
  rcases lowerAscii_spec c with hc | hc
  · exact hc
  · have := pair_fst_not_digit _ hc
    simp only at this
    rw [this] at h
    exact absurd h (by simp)

theorem charEq_digit_b {c : Char} (h : isDigitChar c = true) :
    charEq true c 'b' = false := by
  have hb : lowerAscii 'b' = 'b' := rfl
  simp only [charEq, if_true, hb, digit_lowerAscii_eq h, decide_eq_false_iff_not]
  intro he
  subst he
  exact absurd h (by decide)

/-! ### The matchers -/

def ytCapture : Nat → List Char → Option (List Char)
  | 0, _ => some []
  | _ + 1, [] => none
  | n + 1, c :: cs => if ytIdChar c then (ytCapture n cs).map (c :: ·) else none

def alnumRunTake : List Char → List Char
  | [] => []
  | c :: cs => if isAsciiAlnum c then c :: alnumRunTake cs else []

def digitRunTake : List Char → List Char
  | [] => []
  | c :: cs => if isDigitChar c then c :: digitRunTake cs else []

def bvCapture (l : List Char) : Option (List Char) :=
  match l with
  | b :: v :: rest =>
      if lowerAscii b = 'b' && lowerAscii v = 'v' then
        let r := alnumRunTake rest
        if r.isEmpty then none else some (b :: v :: r)
      else none
  | _ => none

def avCapture (l : List Char) : Option (List Char) :=
  let r := digitRunTake l
  if r.isEmpty then none else some r

def qvThen {α : Type} (k : List Char → Option α) : List Char → Option α
  | a :: b :: c :: rest =>
      if (a = '?' || a = '&') && b = 'v' && c = '=' then k rest else none
  | _ => none

def dotStarThen {α : Type} (k : List Char → Option α) : List Char → Option α
  | [] => k []
  | c :: cs => (if isLineTerm c then none else dotStarThen k cs) <|> k (c :: cs)

def dsAux {α : Type} (k : List Char → Option α) : List Char → Option α
  | [] => none
  | c :: cs => (if isLineTerm c then none else dsAux k cs) <|>
      (if c = '/' then k cs else none)

def dotPlusSlashThen {α : Type} (k : List Char → Option α) : List Char → Option α
  | [] => none
  | c :: cs => if isLineTerm c then none else dsAux k cs

def aAux {α : Type} (k : List Char → Option α) : List Char → Option α
  | [] => none
  | c :: cs => if c = '/' then k cs else aAux k cs

def branchA {α : Type} (k : List Char → Option α) : List Char → Option α
  | [] => none
  | c :: cs => if c = '/' then none else aAux (dotPlusSlashThen k) cs

def branchB {α : Type} (k : List Char → Option α) (l : List Char) : Option α :=
  ((litMatch false "v/".toList l).bind k) <|>
  ((litMatch false "embed/".toList l).bind k) <|>
  ((litMatch false "e/".toList l).bind k)

def ytCap (l : List Char) : Option (List Char) := ytCapture 11 l

def ytInner (l : List Char) : Option (List Char) :=
  branchA ytCap l <|> branchB ytCap l <|> dotStarThen (qvThen ytCap) l

def matchYoutubeAt (l : List Char) : Option (List Char) :=
  ((litMatch false "youtube.com/".toList l).bind ytInner) <|>
  ((litMatch false "youtu.be/".toList l).bind ytCap)

def findFirst {α : Type} (m : List Char → Option α) : List Char → Option α
  | [] => m []
  | l@(_ :: cs) => m l <|> findFirst m cs

def p1At (l : List Char) : Option (List Char) :=
  (litMatch true "bilibili.com/video/".toList l).bind bvCapture

def p2At (l : List Char) : Option (List Char) :=
  (litMatch true "bilibili.com/video/av".toList l).bind avCapture

def p3At (l : List Char) : Option (List Char) :=
  (litMatch true "b23.tv/".toList l).bind bvCapture

def p4At (l : List Char) : Option (List Char) :=
  (litMatch true "m.bilibili.com/video/".toList l).bind bvCapture

def extractBilibiliVideoId (url : String) : Option String :=
  ((findFirst p1At url.toList) <|> (findFirst p2At url.toList) <|>
   (findFirst p3At url.toList) <|> (findFirst p4At url.toList)).map
    (fun l => String.mk l)

def extractVideoId (url : String) : Option String :=
  ((findFirst matchYoutubeAt url.toList).map (fun l => String.mk l)) <|>
  extractBilibiliVideoId url

def hasSub (ci : Bool) (p : List Char) : List Char → Bool
  | [] => p.isEmpty
  | l@(_ :: cs) => (litMatch ci p l).isSome || hasSub ci p cs

inductive Platform where
  | youtube
  | bilibili
  deriving DecidableEq, Repr

def detectPlatform (url : String) : Option Platform :=
  if hasSub false "youtube.com".toList url.toList ||
      hasSub false "youtu.be".toList url.toList then
    some .youtube
  else if hasSub false "bilibili.com".toList url.toList ||
      hasSub false "b23.tv".toList url.toList then
    some .bilibili
  else
    none

/-! ### Generic matching lemmas -/

theorem litMatch_self (ci : Bool) (p rest : List Char) :
    litMatch ci p (p ++ rest) = some rest := by
  induction p with
  | nil => rfl
  | cons c cs ih => simp [litMatch, charEq_self, ih]

theorem litMatch_ne {ci : Bool} {p c : Char} {ps cs : List Char}
    (h : charEq ci c p = false) : litMatch ci (p :: ps) (c :: cs) = none := by
  simp [litMatch, h]

theorem litMatch_none_missing {ci : Bool} {c0 : Char} {p l : List Char}
    (hc0 : c0 ∈ p) (h : ∀ c ∈ l, charEq ci c c0 = false) :
    litMatch ci p l = none := by
  induction p generalizing l with
  | nil => simp at hc0
  | cons q ps ih =>
      cases l with
      | nil => rfl
      | cons c cs =>
          by_cases hq : charEq ci c q = true
          · rcases List.mem_cons.mp hc0 with hval | hval
            · subst hval
              rw [h c (by simp)] at hq
              exact absurd hq (by simp)
            · simp only [litMatch, hq, if_true]
              exact ih hval (fun x hx => h x (by simp [hx]))
          · simp only [litMatch]
            rw [if_neg hq]

theorem findFirst_cons {α : Type} (m : List Char → Option α) (c : Char)
    (cs : List Char) :
    findFirst m (c :: cs) = (m (c :: cs) <|> findFirst m cs) := rfl

theorem findFirst_skip {α : Type} {m : List Char → Option α} (xs : List Char)
    {ys : List Char} (h : ∀ n, n < xs.length → m (xs.drop n ++ ys) = none) :
    findFirst m (xs ++ ys) = findFirst m ys := by
  induction xs with
  | nil => rfl
  | cons c cs ih =>
      have h0 := h 0 (by simp)
      simp only [List.drop_zero, List.cons_append] at h0
      rw [List.cons_append, findFirst_cons, h0, Option.none_orElse]
      exact ih (fun n hn => h (n + 1) (by simpa using hn))

theorem findFirst_eq_of_head {α : Type} {m : List Char → Option α}
    {l : List Char} {v : α} (h : m l = some v) : findFirst m l = some v := by
  cases l with
  | nil => simpa [findFirst] using h
  | cons c cs => rw [findFirst_cons, h]; rfl

theorem findFirst_none_suffix {α : Type} {m : List Char → Option α}
    {l : List Char} (h : ∀ l', l' <:+ l → m l' = none) :
    findFirst m l = none := by
  induction l with
  | nil => exact h [] List.nil_suffix
  | cons c cs ih =>
      rw [findFirst_cons, h (c :: cs) (List.suffix_refl _), Option.none_orElse]
      exact ih (fun l' hl' => h l' (hl'.trans (List.suffix_cons c cs)))

/-! ### YouTube-pattern lemmas -/

theorem ytIdChar_props {c : Char} (h : ytIdChar c = true) :
    c ≠ '"' ∧ c ≠ '&' ∧ c ≠ '?' ∧ c ≠ '/' ∧ isLineTerm c = false := by
  simp only [ytIdChar, Bool.not_eq_true'] at h
  simp only [Bool.or_eq_false_iff] at h
  obtain ⟨⟨⟨⟨h1, h2⟩, h3⟩, h4⟩, h5⟩ := h
  refine ⟨by simpa using h1, by simpa using h2, by simpa using h3,
    by simpa using h4, ?_⟩
  simp only [jsWhitespace, Bool.or_eq_false_iff] at h5
  simp only [isLineTerm, Bool.or_eq_false_iff]
  tauto

theorem ytCapture_full (id : List Char) (hch : ∀ c ∈ id, ytIdChar c = true) :
    ytCapture id.length id = some id := by
  induction id with
  | nil => rfl
  | cons c cs ih =>
      have hc := hch c (by simp)
      simp [ytCapture, hc, ih (fun x hx => hch x (by simp [hx]))]

theorem ytCap_exact (id : List Char) (h11 : id.length = 11)
    (hch : ∀ c ∈ id, ytIdChar c = true) : ytCap id = some id := by
  rw [ytCap, ← h11]
  exact ytCapture_full id hch

theorem aAux_none {α : Type} (k : List Char → Option α) (l : List Char)
    (h : ∀ c ∈ l, c ≠ '/') : aAux k l = none := by
  induction l with
  | nil => rfl
  | cons c cs ih =>
      have := h c (by simp)
      simp only [aAux, if_neg this]
      exact ih (fun x hx => h x (by simp [hx]))

theorem dsAux_none {α : Type} (k : List Char → Option α) (l : List Char)
    (h : ∀ c ∈ l, c ≠ '/') : dsAux k l = none := by
  induction l with
  | nil => rfl
  | cons c cs ih =>
      have hc := h c (by simp)
      have := ih (fun x hx => h x (by simp [hx]))
      simp only [dsAux, this, hc, if_neg hc, if_false]
      cases isLineTerm c <;> rfl

theorem dotPlusSlash_none {α : Type} (k : List Char → Option α) (l : List Char)
    (h : ∀ c ∈ l, c ≠ '/') : dotPlusSlashThen k l = none := by
  cases l with
  | nil => rfl
  | cons c cs =>
      have := dsAux_none k cs (fun x hx => h x (by simp [hx]))
      simp only [dotPlusSlashThen, this]
      cases isLineTerm c <;> rfl

theorem branchA_none {α : Type} (k : List Char → Option α) (l : List Char)
    (h : ∀ c ∈ l, c ≠ '/') : branchA k l = none := by
  cases l with
  | nil => rfl
  | cons c cs =>
      have := h c (by simp)
      simp only [branchA, if_neg this]
      exact aAux_none _ _ (fun x hx => h x (by simp [hx]))

theorem qvThen_none {α : Type} (k : List Char → Option α) {c : Char}
    (cs : List Char) (h1 : c ≠ '?') (h2 : c ≠ '&') :
    qvThen k (c :: cs) = none := by
  match cs with
  | [] => rfl
  | [x] => rfl
  | x :: y :: rest => simp [qvThen, h1, h2]

theorem dotStar_qv_none {α : Type} (k : List Char → Option α) (l : List Char)
    (h : ∀ c ∈ l, c ≠ '?' ∧ c ≠ '&') : dotStarThen (qvThen k) l = none := by
  induction l with
  | nil => rfl
  | cons c cs ih =>
      have hc := h c (by simp)
      have hrec := ih (fun x hx => h x (by simp [hx]))
      simp only [dotStarThen, hrec]
      rw [qvThen_none _ _ hc.1 hc.2]
      cases isLineTerm c <;> rfl

theorem dotStar_prepend_some {α : Type} {k : List Char → Option α} {v : α}
    (xs : List Char) {ys : List Char} (hys : dotStarThen k ys = some v)
    (hxs : ∀ c ∈ xs, isLineTerm c = false) :
    dotStarThen k (xs ++ ys) = some v := by
  induction xs with
  | nil => simpa using hys
  | cons c cs ih =>
      have hc := hxs c (by simp)
      have := ih (fun x hx => hxs x (by simp [hx]))
      simp only [List.cons_append, dotStarThen, List.append_eq, hc,
        Bool.false_eq_true, if_false, this]
      rfl

theorem matchYoutubeAt_cons_none {c : Char} (cs : List Char) (h : c ≠ 'y') :
    matchYoutubeAt (c :: cs) = none := by
  have h1 : litMatch false "youtube.com/".toList (c :: cs) = none :=
    litMatch_ne (charEq_false_of_ne h)
  have h2 : litMatch false "youtu.be/".toList (c :: cs) = none :=
    litMatch_ne (charEq_false_of_ne h)
  unfold matchYoutubeAt
  rw [h1, h2]
  rfl

theorem matchYoutubeAt_alnum_none {l : List Char}
    (h : ∀ c ∈ l, isAsciiAlnum c = true) : matchYoutubeAt l = none := by
  have h1 : litMatch false "youtube.com/".toList l = none :=
    litMatch_none_missing (by decide) (fun c hc => charEq_alnum_dot (h c hc))
  have h2 : litMatch false "youtu.be/".toList l = none :=
    litMatch_none_missing (by decide) (fun c hc => charEq_alnum_dot (h c hc))
  unfold matchYoutubeAt
  rw [h1, h2]
  rfl

theorem findYt_alnum_none {l : List Char}
    (h : ∀ c ∈ l, isAsciiAlnum c = true) :
    findFirst matchYoutubeAt l = none :=
  findFirst_none_suffix (fun _ hl' =>
    matchYoutubeAt_alnum_none (fun c hc => h c (hl'.subset hc)))

/-! ### Bilibili capture and scan lemmas -/

theorem alnumRunTake_all {l : List Char} (h : ∀ c ∈ l, isAsciiAlnum c = true) :
    alnumRunTake l = l := by
  induction l with
  | nil => rfl
  | cons c cs ih =>
      simp [alnumRunTake, h c (by simp), ih (fun x hx => h x (by simp [hx]))]

theorem digitRunTake_all {l : List Char} (h : ∀ c ∈ l, isDigitChar c = true) :
    digitRunTake l = l := by
  induction l with
  | nil => rfl
  | cons c cs ih =>
      simp [digitRunTake, h c (by simp), ih (fun x hx => h x (by simp [hx]))]

theorem bvCapture_bv {t : List Char} (hne : t ≠ [])
    (ht : ∀ c ∈ t, isAsciiAlnum c = true) :
    bvCapture ('B' :: 'V' :: t) = some ('B' :: 'V' :: t) := by
  cases t with
  | nil => exact absurd rfl hne
  | cons c cs =>
      simp only [bvCapture, alnumRunTake_all ht]
      rfl

theorem avCapture_digits {d : List Char} (hne : d ≠ [])
    (hd : ∀ c ∈ d, isDigitChar c = true) : avCapture d = some d := by
  cases d with
  | nil => exact absurd rfl hne
  | cons c cs =>
      simp only [avCapture, digitRunTake_all hd]
      rfl

theorem p1At_alnum_suffix_none {l : List Char}
    (h : ∀ c ∈ l, isAsciiAlnum c = true) : findFirst p1At l = none := by
  refine findFirst_none_suffix (fun l' hl' => ?_)
  have : litMatch true "bilibili.com/video/".toList l' = none :=
    litMatch_none_missing (by decide)
      (fun c hc => charEq_alnum_dot (h c (hl'.subset hc)))
  rw [p1At, this]
  rfl

theorem p2At_alnum_suffix_none {l : List Char}
    (h : ∀ c ∈ l, isAsciiAlnum c = true) : findFirst p2At l = none := by
  refine findFirst_none_suffix (fun l' hl' => ?_)
  have : litMatch true "bilibili.com/video/av".toList l' = none :=
    litMatch_none_missing (by decide)
      (fun c hc => charEq_alnum_dot (h c (hl'.subset hc)))
  rw [p2At, this]
  rfl

theorem digit_alnum {c : Char} (h : isDigitChar c = true) :
    isAsciiAlnum c = true := by
  simp only [isDigitChar] at h
  simp [isAsciiAlnum, h]

/- shape theorems: youtube -/

theorem yt_watch (id : String) (h11 : id.length = 11)
    (hch : ∀ c ∈ id.toList, ytIdChar c = true) :
    extractVideoId ("https://www.youtube.com/watch?v=" ++ id) = some id := by
  obtain ⟨l⟩ := id
  have hl : ∀ c ∈ l, ytIdChar c = true := hch
  have hlen : l.length = 11 := h11
  have hdata : ("https://www.youtube.com/watch?v=" ++ String.mk l).toList =
      "https://www.".toList ++ ("youtube.com/".toList ++ ("watch?v=".toList ++ l)) :=
    rfl
  have hinner : ytInner ("watch?v=".toList ++ l) = some l := by
    have hA : branchA ytCap ("watch?v=".toList ++ l) = none := by
      refine branchA_none _ _ (fun c hc => ?_)
      rcases List.mem_append.mp hc with h | h
      · exact (by decide : ∀ c ∈ "watch?v=".toList, c ≠ '/') c h
      · exact (ytIdChar_props (hl c h)).2.2.2.1
    have hB : branchB ytCap ("watch?v=".toList ++ l) = none := by
      unfold branchB
      rw [show litMatch false "v/".toList ("watch?v=".toList ++ l) = none from rfl]
      rw [show litMatch false "embed/".toList ("watch?v=".toList ++ l) = none from
        rfl]
      rw [show litMatch false "e/".toList ("watch?v=".toList ++ l) = none from rfl]
      rfl
    have hC : dotStarThen (qvThen ytCap) ("watch?v=".toList ++ l) = some l := by
      have htail : dotStarThen (qvThen ytCap) ("v=".toList ++ l) = none := by
        refine dotStar_qv_none _ _ (fun c hc => ?_)
        rcases List.mem_append.mp hc with h | h
        · exact (by decide : ∀ c ∈ "v=".toList, c ≠ '?' ∧ c ≠ '&') c h
        · have := ytIdChar_props (hl c h)
          exact ⟨this.2.2.1, this.2.1⟩
      have hqv : qvThen ytCap ("?v=".toList ++ l) = ytCap l := by
        cases l <;> rfl
      have hstep : dotStarThen (qvThen ytCap) ("?v=".toList ++ l) = some l := by
        rw [show ("?v=".toList ++ l) = '?' :: ("v=".toList ++ l) from rfl,
          dotStarThen, htail]
        rw [show ('?' :: ("v=".toList ++ l)) = ("?v=".toList ++ l) from rfl, hqv,
          ytCap_exact l hlen hl]
        rfl
      rw [show ("watch?v=".toList ++ l) = "watch".toList ++ ("?v=".toList ++ l)
        from rfl]
      exact dotStar_prepend_some _ hstep (by decide)
    rw [ytInner, hA, hB, hC]
    rfl
  have hmatch : matchYoutubeAt ("youtube.com/".toList ++ ("watch?v=".toList ++ l)) =
      some l := by
    unfold matchYoutubeAt
    rw [litMatch_self]
    rw [show litMatch false "youtu.be/".toList
      ("youtube.com/".toList ++ ("watch?v=".toList ++ l)) = none from rfl]
    have hinner' :
        ytInner ('w' :: 'a' :: 't' :: 'c' :: 'h' :: '?' :: 'v' :: '=' :: l) =
          some l := hinner
    simp [hinner']
  have hfind : findFirst matchYoutubeAt
      ("https://www.".toList ++
        ("youtube.com/".toList ++ ("watch?v=".toList ++ l))) = some l := by
    rw [findFirst_skip "https://www.".toList]
    · exact findFirst_eq_of_head hmatch
    · intro n hn
      have hb : ("https://www.".toList).length = 12 := rfl
      rw [hb] at hn
      interval_cases n <;> rfl
  rw [extractVideoId, hdata, hfind]
  rfl

theorem yt_short (id : String) (h11 : id.length = 11)
    (hch : ∀ c ∈ id.toList, ytIdChar c = true) :
    extractVideoId ("https://youtu.be/" ++ id) = some id := by
  obtain ⟨l⟩ := id
  have hl : ∀ c ∈ l, ytIdChar c = true := hch
  have hmatch : matchYoutubeAt ("youtu.be/".toList ++ l) = some l := by
    unfold matchYoutubeAt
    rw [show litMatch false "youtube.com/".toList ("youtu.be/".toList ++ l) = none
      from rfl]
    rw [litMatch_self]
    simp [ytCap_exact l h11 hl]
  have hfind : findFirst matchYoutubeAt
      ("https://".toList ++ ("youtu.be/".toList ++ l)) = some l := by
    rw [findFirst_skip "https://".toList]
    · exact findFirst_eq_of_head hmatch
    · intro n hn
      have hb : ("https://".toList).length = 8 := rfl
      rw [hb] at hn
      interval_cases n <;> rfl
  have hdata : ("https://youtu.be/" ++ String.mk l).toList =
      "https://".toList ++ ("youtu.be/".toList ++ l) := rfl
  rw [extractVideoId, hdata, hfind]
  rfl

theorem yt_embed (id : String) (h11 : id.length = 11)
    (hch : ∀ c ∈ id.toList, ytIdChar c = true) :
    extractVideoId ("https://www.youtube.com/embed/" ++ id) = some id := by
  obtain ⟨l⟩ := id
  have hl : ∀ c ∈ l, ytIdChar c = true := hch
  have hinner : ytInner ("embed/".toList ++ l) = some l := by
    have hA : branchA ytCap ("embed/".toList ++ l) = none := by
      have step : branchA ytCap ("embed/".toList ++ l) =
          aAux (dotPlusSlashThen ytCap) ("mbed/".toList ++ l) := rfl
      have walk : aAux (dotPlusSlashThen ytCap) ("mbed/".toList ++ l) =
          dotPlusSlashThen ytCap l := rfl
      rw [step, walk]
      exact dotPlusSlash_none _ _ (fun c hc => (ytIdChar_props (hl c hc)).2.2.2.1)
    have hB : branchB ytCap ("embed/".toList ++ l) = some l := by
      unfold branchB
      rw [show litMatch false "v/".toList ("embed/".toList ++ l) = none from rfl]
      rw [litMatch_self]
      simp [ytCap_exact l h11 hl]
    rw [ytInner, hA, hB]
    rfl
  have hmatch : matchYoutubeAt ("youtube.com/".toList ++ ("embed/".toList ++ l)) =
      some l := by
    unfold matchYoutubeAt
    rw [litMatch_self]
    rw [show litMatch false "youtu.be/".toList
      ("youtube.com/".toList ++ ("embed/".toList ++ l)) = none from rfl]
    have hinner' : ytInner ('e' :: 'm' :: 'b' :: 'e' :: 'd' :: '/' :: l) = some l :=
      hinner
    simp [hinner']
  have hfind : findFirst matchYoutubeAt
      ("https://www.".toList ++ ("youtube.com/".toList ++ ("embed/".toList ++ l))) =
      some l := by
    rw [findFirst_skip "https://www.".toList]
    · exact findFirst_eq_of_head hmatch
    · intro n hn
      have hb : ("https://www.".toList).length = 12 := rfl
      rw [hb] at hn
      interval_cases n <;> rfl
  have hdata : ("https://www.youtube.com/embed/" ++ String.mk l).toList =
      "https://www.".toList ++ ("youtube.com/".toList ++ ("embed/".toList ++ l)) :=
    rfl
  rw [extractVideoId, hdata, hfind]
  rfl

theorem bili_bv_canonical (t : String) (hne : t.toList ≠ [])
    (ht : ∀ c ∈ t.toList, isAsciiAlnum c = true) :
    extractVideoId ("https://www.bilibili.com/video/BV" ++ t) =
      some ("BV" ++ t) ∧
    extractBilibiliVideoId ("https://www.bilibili.com/video/BV" ++ t) =
      some ("BV" ++ t) := by
  obtain ⟨l⟩ := t
  have hl : ∀ c ∈ l, isAsciiAlnum c = true := ht
  have hbv : ∀ c ∈ 'B' :: 'V' :: l, isAsciiAlnum c = true := by
    intro c hc
    rcases List.mem_cons.mp hc with h | hc
    · subst h; decide
    rcases List.mem_cons.mp hc with h | hc
    · subst h; decide
    · exact hl c hc
  have hyt : findFirst matchYoutubeAt
      ("https://www.bilibili.com/video/".toList ++ ('B' :: 'V' :: l)) = none := by
    rw [findFirst_skip "https://www.bilibili.com/video/".toList]
    · exact findYt_alnum_none hbv
    · intro n hn
      have hb : ("https://www.bilibili.com/video/".toList).length = 31 := rfl
      rw [hb] at hn
      interval_cases n <;> rfl
  have hp1 : findFirst p1At
      ("https://www.".toList ++
        ("bilibili.com/video/".toList ++ ('B' :: 'V' :: l))) =
      some ('B' :: 'V' :: l) := by
    rw [findFirst_skip "https://www.".toList]
    · refine findFirst_eq_of_head ?_
      rw [p1At, litMatch_self]
      simp only [Option.some_bind]
      exact bvCapture_bv hne hl
    · intro n hn
      have hb : ("https://www.".toList).length = 12 := rfl
      rw [hb] at hn
      interval_cases n <;> rfl
  have hyt' : findFirst matchYoutubeAt
      ("https://www.bilibili.com/video/BV" ++ String.mk l).toList = none := hyt
  have hp1' : findFirst p1At
      ("https://www.bilibili.com/video/BV" ++ String.mk l).toList =
      some ('B' :: 'V' :: l) := hp1
  constructor
  · rw [extractVideoId, hyt', extractBilibiliVideoId, hp1']
    rfl
  · rw [extractBilibiliVideoId, hp1']
    rfl

theorem bili_av_canonical (d : String) (hne : d.toList ≠ [])
    (hd : ∀ c ∈ d.toList, isDigitChar c = true) :
    extractVideoId ("https://www.bilibili.com/video/av" ++ d) = some d ∧
    extractBilibiliVideoId ("https://www.bilibili.com/video/av" ++ d) = some d := by
  obtain ⟨l⟩ := d
  have hl : ∀ c ∈ l, isDigitChar c = true := hd
  have hlal : ∀ c ∈ l, isAsciiAlnum c = true := fun c hc => digit_alnum (hl c hc)
  have hyt : findFirst matchYoutubeAt
      ("https://www.bilibili.com/video/av".toList ++ l) = none := by
    rw [findFirst_skip "https://www.bilibili.com/video/av".toList]
    · exact findYt_alnum_none hlal
    · intro n hn
      have hb : ("https://www.bilibili.com/video/av".toList).length = 33 := rfl
      rw [hb] at hn
      interval_cases n <;> rfl
  have hp1 : findFirst p1At
      ("https://www.bilibili.com/video/av".toList ++ l) = none := by
    rw [findFirst_skip "https://www.bilibili.com/video/av".toList]
    · exact p1At_alnum_suffix_none hlal
    · intro n hn
      have hb : ("https://www.bilibili.com/video/av".toList).length = 33 := rfl
      rw [hb] at hn
      interval_cases n <;> rfl
  have hp2 : findFirst p2At
      ("https://www.".toList ++ ("bilibili.com/video/av".toList ++ l)) =
      some l := by
    rw [findFirst_skip "https://www.".toList]
    · refine findFirst_eq_of_head ?_
      rw [p2At, litMatch_self]
      simp only [Option.some_bind]
      exact avCapture_digits hne hl
    · intro n hn
      have hb : ("https://www.".toList).length = 12 := rfl
      rw [hb] at hn
      interval_cases n <;> rfl
  have hyt' : findFirst matchYoutubeAt
      ("https://www.bilibili.com/video/av" ++ String.mk l).toList = none := hyt
  have hp1' : findFirst p1At
      ("https://www.bilibili.com/video/av" ++ String.mk l).toList = none := hp1
  have hp2' : findFirst p2At
      ("https://www.bilibili.com/video/av" ++ String.mk l).toList = some l := hp2
  constructor
  · rw [extractVideoId, hyt', extractBilibiliVideoId, hp1', hp2']
    rfl
  · rw [extractBilibiliVideoId, hp1', hp2']
    rfl

theorem bili_short (t : String) (hne : t.toList ≠ [])
    (ht : ∀ c ∈ t.toList, isAsciiAlnum c = true) :
    extractVideoId ("https://b23.tv/BV" ++ t) = some ("BV" ++ t) ∧
    extractBilibiliVideoId ("https://b23.tv/BV" ++ t) = some ("BV" ++ t) := by
  obtain ⟨l⟩ := t
  have hl : ∀ c ∈ l, isAsciiAlnum c = true := ht
  have hbv : ∀ c ∈ 'B' :: 'V' :: l, isAsciiAlnum c = true := by
    intro c hc
    rcases List.mem_cons.mp hc with h | hc
    · subst h; decide
    rcases List.mem_cons.mp hc with h | hc
    · subst h; decide
    · exact hl c hc
  have hyt : findFirst matchYoutubeAt
      ("https://b23.tv/".toList ++ ('B' :: 'V' :: l)) = none := by
    rw [findFirst_skip "https://b23.tv/".toList]
    · exact findYt_alnum_none hbv
    · intro n hn
      have hb : ("https://b23.tv/".toList).length = 15 := rfl
      rw [hb] at hn
      interval_cases n <;> rfl
  have hp1 : findFirst p1At
      ("https://b23.tv/".toList ++ ('B' :: 'V' :: l)) = none := by
    rw [findFirst_skip "https://b23.tv/".toList]
    · exact p1At_alnum_suffix_none hbv
    · intro n hn
      have hb : ("https://b23.tv/".toList).length = 15 := rfl
      rw [hb] at hn
      interval_cases n <;> rfl
  have hp2 : findFirst p2At
      ("https://b23.tv/".toList ++ ('B' :: 'V' :: l)) = none := by
    rw [findFirst_skip "https://b23.tv/".toList]
    · exact p2At_alnum_suffix_none hbv
    · intro n hn
      have hb : ("https://b23.tv/".toList).length = 15 := rfl
      rw [hb] at hn
      interval_cases n <;> rfl
  have hp3 : findFirst p3At
      ("https://".toList ++ ("b23.tv/".toList ++ ('B' :: 'V' :: l))) =
      some ('B' :: 'V' :: l) := by
    rw [findFirst_skip "https://".toList]
    · refine findFirst_eq_of_head ?_
      rw [p3At, litMatch_self]
      simp only [Option.some_bind]
      exact bvCapture_bv hne hl
    · intro n hn
      have hb : ("https://".toList).length = 8 := rfl
      rw [hb] at hn
      interval_cases n <;> rfl
  have hyt' : findFirst matchYoutubeAt
      ("https://b23.tv/BV" ++ String.mk l).toList = none := hyt
  have hp1' : findFirst p1At ("https://b23.tv/BV" ++ String.mk l).toList = none :=
    hp1
  have hp2' : findFirst p2At ("https://b23.tv/BV" ++ String.mk l).toList = none :=
    hp2
  have hp3' : findFirst p3At ("https://b23.tv/BV" ++ String.mk l).toList =
      some ('B' :: 'V' :: l) := hp3
  constructor
  · rw [extractVideoId, hyt', extractBilibiliVideoId, hp1', hp2', hp3']
    rfl
  · rw [extractBilibiliVideoId, hp1', hp2', hp3']
    rfl

theorem bili_mobile (t : String) (hne : t.toList ≠ [])
    (ht : ∀ c ∈ t.toList, isAsciiAlnum c = true) :
    extractVideoId ("https://m.bilibili.com/video/BV" ++ t) = some ("BV" ++ t) ∧
    extractBilibiliVideoId ("https://m.bilibili.com/video/BV" ++ t) =
      some ("BV" ++ t) := by
  obtain ⟨l⟩ := t
  have hl : ∀ c ∈ l, isAsciiAlnum c = true := ht
  have hbv : ∀ c ∈ 'B' :: 'V' :: l, isAsciiAlnum c = true := by
    intro c hc
    rcases List.mem_cons.mp hc with h | hc
    · subst h; decide
    rcases List.mem_cons.mp hc with h | hc
    · subst h; decide
    · exact hl c hc
  have hyt : findFirst matchYoutubeAt
      ("https://m.bilibili.com/video/".toList ++ ('B' :: 'V' :: l)) = none := by
    rw [findFirst_skip "https://m.bilibili.com/video/".toList]
    · exact findYt_alnum_none hbv
    · intro n hn
      have hb : ("https://m.bilibili.com/video/".toList).length = 29 := rfl
      rw [hb] at hn
      interval_cases n <;> rfl
  have hp1 : findFirst p1At
      ("https://m.".toList ++ ("bilibili.com/video/".toList ++ ('B' :: 'V' :: l))) =
      some ('B' :: 'V' :: l) := by
    rw [findFirst_skip "https://m.".toList]
    · refine findFirst_eq_of_head ?_
      rw [p1At, litMatch_self]
      simp only [Option.some_bind]
      exact bvCapture_bv hne hl
    · intro n hn
      have hb : ("https://m.".toList).length = 10 := rfl
      rw [hb] at hn
      interval_cases n <;> rfl
  have hyt' : findFirst matchYoutubeAt
      ("https://m.bilibili.com/video/BV" ++ String.mk l).toList = none := hyt
  have hp1' : findFirst p1At
      ("https://m.bilibili.com/video/BV" ++ String.mk l).toList =
      some ('B' :: 'V' :: l) := hp1
  constructor
  · rw [extractVideoId, hyt', extractBilibiliVideoId, hp1']
    rfl
  · rw [extractBilibiliVideoId, hp1']
    rfl

/-! ### Unsupported-domain lemmas -/

theorem hasSub_false_all {ci : Bool} {p l : List Char}
    (h : hasSub ci p l = false) :
    ∀ l', l' <:+ l → litMatch ci p l' = none := by
  induction l with
  | nil =>
      intro l' hl'
      rw [List.suffix_nil.mp hl']
      cases p with
      | nil => simp [hasSub] at h
      | cons q ps => rfl
  | cons c cs ih =>
      simp only [hasSub, Bool.or_eq_false_iff] at h
      intro l' hl'
      rcases List.suffix_cons_iff.mp hl' with he | hs
      · subst he
        exact Option.not_isSome_iff_eq_none.mp (by simp [h.1])
      · exact ih h.2 l' hs

theorem litMatch_none_of_prefix_none {ci : Bool} {p q l : List Char}
    (h : litMatch ci p l = none) : litMatch ci (p ++ q) l = none := by
  induction p generalizing l with
  | nil => simp [litMatch] at h
  | cons a ps ih =>
      cases l with
      | nil => rfl
      | cons c cs =>
          by_cases hc : charEq ci c a = true
          · simp only [litMatch, hc, if_true] at h
            simp only [List.cons_append, litMatch, hc, if_true]
            exact ih h
          · simp only [List.cons_append, litMatch]
            rw [if_neg hc]

theorem litMatch_append_decomp {ci : Bool} {p q l : List Char}
    (h : (litMatch ci (p ++ q) l).isSome = true) :
    ∃ l'', l'' <:+ l ∧ (litMatch ci q l'').isSome = true := by
  induction p generalizing l with
  | nil => exact ⟨l, List.suffix_refl l, by simpa using h⟩
  | cons a ps ih =>
      cases l with
      | nil => simp [litMatch] at h
      | cons c cs =>
          by_cases hc : charEq ci c a = true
          · simp only [List.cons_append, litMatch, hc, if_true] at h
            obtain ⟨l'', hsuf, hsome⟩ := ih h
            exact ⟨l'', hsuf.trans (List.suffix_cons c cs), hsome⟩
          · simp only [List.cons_append, litMatch] at h
            rw [if_neg hc] at h
            simp at h

theorem extract_unsupported (url : String)
    (h1 : hasSub false "youtube.com/".toList url.toList = false)
    (h2 : hasSub false "youtu.be/".toList url.toList = false)
    (h3 : hasSub true "bilibili.com/video/".toList url.toList = false)
    (h4 : hasSub true "b23.tv/".toList url.toList = false) :
    extractVideoId url = none ∧ extractBilibiliVideoId url = none := by
  have hyt : findFirst matchYoutubeAt url.toList = none := by
    refine findFirst_none_suffix (fun l' hl' => ?_)
    unfold matchYoutubeAt
    rw [hasSub_false_all h1 l' hl', hasSub_false_all h2 l' hl']
    rfl
  have hp1 : findFirst p1At url.toList = none := by
    refine findFirst_none_suffix (fun l' hl' => ?_)
    rw [p1At, hasSub_false_all h3 l' hl']
    rfl
  have hp2 : findFirst p2At url.toList = none := by
    refine findFirst_none_suffix (fun l' hl' => ?_)
    have : litMatch true "bilibili.com/video/av".toList l' = none := by
      have hsplit : "bilibili.com/video/av".toList =
          "bilibili.com/video/".toList ++ "av".toList := rfl
      rw [hsplit]
      exact litMatch_none_of_prefix_none (hasSub_false_all h3 l' hl')
    rw [p2At, this]
    rfl
  have hp3 : findFirst p3At url.toList = none := by
    refine findFirst_none_suffix (fun l' hl' => ?_)
    rw [p3At, hasSub_false_all h4 l' hl']
    rfl
  have hp4 : findFirst p4At url.toList = none := by
    refine findFirst_none_suffix (fun l' hl' => ?_)
    cases hlm : litMatch true "m.bilibili.com/video/".toList l' with
    | none => rw [p4At, hlm]; rfl
    | some r =>
        exfalso
        have hsome : (litMatch true ("m.".toList ++ "bilibili.com/video/".toList)
            l').isSome = true := by
          rw [show ("m.".toList ++ "bilibili.com/video/".toList) =
            "m.bilibili.com/video/".toList from rfl, hlm]
          rfl
        obtain ⟨l'', hsuf, hsome'⟩ := litMatch_append_decomp hsome
        rw [hasSub_false_all h3 l'' (hsuf.trans hl')] at hsome'
        simp at hsome'
  refine ⟨?_, ?_⟩
  · rw [extractVideoId, hyt, extractBilibiliVideoId, hp1, hp2, hp3, hp4]
    rfl
  · rw [extractBilibiliVideoId, hp1, hp2, hp3, hp4]
    rfl

/-- Claim C4: for every URL in each supported shape — YouTube canonical
`watch?v=`, short `youtu.be/`, embed; Bilibili canonical `BV`, canonical
`av<digits>`, short `b23.tv`, mobile `m.bilibili.com` — `extractVideoId`
returns the correct identifier, and for every URL that contains none of the
trigger substrings (an unsupported domain) it returns `none`. -/
theorem extractVideoId_shapes :
    (∀ id : String, id.length = 11 → (∀ c ∈ id.toList, ytIdChar c = true) →
      extractVideoId ("https://www.youtube.com/watch?v=" ++ id) = some id ∧
      extractVideoId ("https://youtu.be/" ++ id) = some id ∧
      extractVideoId ("https://www.youtube.com/embed/" ++ id) = some id) ∧
    (∀ t : String, t.toList ≠ [] → (∀ c ∈ t.toList, isAsciiAlnum c = true) →
      extractVideoId ("https://www.bilibili.com/video/BV" ++ t) =
        some ("BV" ++ t) ∧
      extractVideoId ("https://b23.tv/BV" ++ t) = some ("BV" ++ t) ∧
      extractVideoId ("https://m.bilibili.com/video/BV" ++ t) =
        some ("BV" ++ t)) ∧
    (∀ d : String, d.toList ≠ [] → (∀ c ∈ d.toList, isDigitChar c = true) →
      extractVideoId ("https://www.bilibili.com/video/av" ++ d) = some d) ∧
    (∀ url : String,
      hasSub false "youtube.com/".toList url.toList = false →
      hasSub false "youtu.be/".toList url.toList = false →
      hasSub true "bilibili.com/video/".toList url.toList = false →
      hasSub true "b23.tv/".toList url.toList = false →
      extractVideoId url = none) := by
  refine ⟨fun id h1 h2 => ⟨yt_watch id h1 h2, yt_short id h1 h2,
      yt_embed id h1 h2⟩,
    fun t h1 h2 => ⟨(bili_bv_canonical t h1 h2).1, (bili_short t h1 h2).1,
      (bili_mobile t h1 h2).1⟩,
    fun d h1 h2 => (bili_av_canonical d h1 h2).1,
    fun url a b c d => (extract_unsupported url a b c d).1⟩

/-- Witness for `extractVideoId_shapes` at concrete URLs of each platform. -/
theorem extractVideoId_shapes_witness :
    ("dQw4w9WgXcQ" : String).length = 11 ∧
    (∀ c ∈ ("dQw4w9WgXcQ" : String).toList, ytIdChar c = true) ∧
    extractVideoId ("https://www.youtube.com/watch?v=" ++ "dQw4w9WgXcQ") =
      some "dQw4w9WgXcQ" ∧
    extractVideoId ("https://youtu.be/" ++ "dQw4w9WgXcQ") = some "dQw4w9WgXcQ" ∧
    extractVideoId ("https://www.bilibili.com/video/BV" ++ "1xx411c7mD") =
      some ("BV" ++ "1xx411c7mD") ∧
    extractVideoId ("https://www.bilibili.com/video/av" ++ "170001") =
      some "170001" ∧
    extractVideoId "https://vimeo.com/123456" = none := by
  obtain ⟨hyt, hbv, hav, hun⟩ := extractVideoId_shapes
  exact ⟨by decide, by decide, (hyt _ (by decide) (by decide)).1,
    (hyt _ (by decide) (by decide)).2.1,
    (hbv _ (by decide) (by decide)).1,
    hav _ (by decide) (by decide),
    hun _ (by decide) (by decide) (by decide) (by decide)⟩

/-- Claim C10: for `av`-format Bilibili URLs both `extractVideoId` and
`extractBilibiliVideoId` return only the digit string, without the `av`
prefix, whereas for `BV`-format URLs the returned identifier keeps the `BV`
prefix. -/
theorem bilibili_av_digits_only :
    (∀ d : String, d.toList ≠ [] → (∀ c ∈ d.toList, isDigitChar c = true) →
      extractVideoId ("https://www.bilibili.com/video/av" ++ d) = some d ∧
      extractBilibiliVideoId ("https://www.bilibili.com/video/av" ++ d) =
        some d) ∧
    (∀ t : String, t.toList ≠ [] → (∀ c ∈ t.toList, isAsciiAlnum c = true) →
      extractVideoId ("https://www.bilibili.com/video/BV" ++ t) =
        some ("BV" ++ t) ∧
      extractBilibiliVideoId ("https://www.bilibili.com/video/BV" ++ t) =
        some ("BV" ++ t)) :=
  ⟨fun d h1 h2 => bili_av_canonical d h1 h2,
   fun t h1 h2 => bili_bv_canonical t h1 h2⟩

/-- Witness for `bilibili_av_digits_only` at the spec's example URLs. -/
theorem bilibili_av_digits_only_witness :
    (("170001" : String).toList ≠ []) ∧
    extractVideoId ("https://www.bilibili.com/video/av" ++ "170001") =
      some "170001" ∧
    extractBilibiliVideoId ("https://www.bilibili.com/video/av" ++ "170001") =
      some "170001" ∧
    extractBilibiliVideoId ("https://www.bilibili.com/video/BV" ++ "1xx411c7mD") =
      some ("BV" ++ "1xx411c7mD") := by
  obtain ⟨hav, hbv⟩ := bilibili_av_digits_only
  exact ⟨by decide, (hav _ (by decide) (by decide)).1,
    (hav _ (by decide) (by decide)).2,
    (hbv _ (by decide) (by decide)).2⟩

/-! ## The `/api/check-video-cache` handler (`src/unnamed/part_001`) -/

/-- Rows of the YouTube `video_analyses` table as the cache-check handler
reads them.  The YouTube migration itself is not among the source files;
the fields are exactly those the handler selects from `cachedVideo`. -/
structure YtRow (J : Type) where
  id : Nat
  youtube_id : String
  title : String
  author : Option String
  duration : Int
  thumbnail_url : Option String
  transcript : J
  topics : Option J
  summary : Option J
  suggested_questions : Option J
  created_at : Nat
  deriving DecidableEq, Repr

/-- The two analysis tables visible to the handler. -/
structure CacheDb (J : Type) where
  video_analyses : List (YtRow J)
  bilibili_video_analyses : List (BiliRow J)
  deriving DecidableEq, Repr

/-- The externally observable effects the handler can perform.  The provider
clients (`getBilibiliVideoInfo` etc.) would appear as `callYouTubeProvider`/
`callBilibiliProvider`; the handler never emits them. -/
inductive CacheAction where
  | queryVideoAnalyses (vid : String)
  | queryBilibiliAnalyses (vid : String)
  | upsertUserVideo (userId : String) (rowId : Nat)
  | callYouTubeProvider
  | callBilibiliProvider
  deriving DecidableEq, Repr

/-- Supabase `.single()`: the one matching row, or null (error) when zero or
several rows match. -/
def singleWhere {α : Type} (p : α → Bool) (rows : List α) : Option α :=
  match rows.filter p with
  | [r] => some r
  | _ => none

/-- The `videoInfo` object assembled in the cached-true response. -/
structure CachedVideoInfo where
  title : String
  author : Option String
  duration : Int
  thumbnail : Option String
  deriving DecidableEq, Repr

/-- The handler's JSON responses. -/
inductive CacheCheckResp (J : Type) where
  | error (status : Nat) (msg : String)
  | cachedTrue (videoId : String) (platform : Platform) (topics : J)
      (transcript : J) (videoInfo : CachedVideoInfo) (summary : Option J)
      (suggestedQuestions : Option J) (cacheDate : Nat)
  | cachedFalse (videoId : String) (platform : Platform)
  deriving DecidableEq, Repr

/-- The columns the handler reads off the row it found. -/
structure FoundRow (J : Type) where
  rowId : Nat
  topics : Option J
  transcript : J
  info : CachedVideoInfo
  summary : Option J
  suggestedQuestions : Option J
  createdAt : Nat
  deriving DecidableEq, Repr

def ytFound {J : Type} (r : YtRow J) : FoundRow J :=
  ⟨r.id, r.topics, r.transcript, ⟨r.title, r.author, r.duration, r.thumbnail_url⟩,
   r.summary, r.suggested_questions, r.created_at⟩

def biliFound {J : Type} (r : BiliRow J) : FoundRow J :=
  ⟨r.id, r.topics, r.transcript, ⟨r.title, r.author, r.duration, r.thumbnail_url⟩,
   r.summary, r.suggested_questions, r.created_at⟩

/-- Lines 62-100 of the handler: `if (cachedVideo && cachedVideo.topics)`
return everything as stored (tracking access for a logged-in user first),
else `cached: false`. -/
def cacheFinish {J : Type} (platform : Platform) (vid : String)
    (queryAct : CacheAction) (user : Option String)
    (found : Option (FoundRow J)) : List CacheAction × CacheCheckResp J :=
  match found with
  | some f =>
      match f.topics with
      | some tp =>
          (queryAct :: (match user with
            | some uid => [.upsertUserVideo uid f.rowId]
            | none => []),
           .cachedTrue vid platform tp f.transcript f.info f.summary
             f.suggestedQuestions f.createdAt)
      | none => ([queryAct], .cachedFalse vid platform)
  | none => ([queryAct], .cachedFalse vid platform)

/-- The `/api/check-video-cache` POST handler: validate the URL, detect the
platform, extract the ID, look the record up in the platform's table with
`.single()`, and answer from the cache alone. -/
def checkVideoCacheHandler {J : Type} (db : CacheDb J) (user : Option String)
    (url : Option String) : List CacheAction × CacheCheckResp J :=
  match url with
  | none => ([], .error 400 "URL是必需的")
  | some u =>
      match detectPlatform u with
      | none => ([], .error 400 "不支持的视频平台。请提供YouTube或Bilibili链接。")
      | some platform =>
          match extractVideoId u with
          | none => ([], .error 400 (match platform with
              | .youtube => "无效的YouTube URL"
              | .bilibili => "无效的Bilibili URL"))
          | some vid =>
              match platform with
              | .youtube =>
                  cacheFinish .youtube vid (.queryVideoAnalyses vid) user
                    ((singleWhere (fun r => r.youtube_id == vid)
                      db.video_analyses).map ytFound)
              | .bilibili =>
                  cacheFinish .bilibili vid (.queryBilibiliAnalyses vid) user
                    ((singleWhere (fun r => r.bvid == some vid ||
                      r.aid == some vid) db.bilibili_video_analyses).map
                        biliFound)

/-- Claim C9: for every stored analysis record whose `topics` field is
populated and which is the unique match for the requested video ID, the
cache-check endpoint answers `cached: true` with the stored transcript,
topics, summary, suggested questions and video info exactly as persisted,
emitting no provider-client call; and when no record with populated topics
matches, it answers `cached: false`.  Stated for both platforms, with the
no-provider-call guarantee holding for every request. -/
theorem checkCache_spec {J : Type} :
    (∀ (db : CacheDb J) (user : Option String) (url : Option String),
      ∀ a ∈ (checkVideoCacheHandler db user url).1,
        a ≠ CacheAction.callYouTubeProvider ∧
        a ≠ CacheAction.callBilibiliProvider) ∧
    (∀ (db : CacheDb J) (user : Option String) (url vid : String)
        (r : BiliRow J) (tp : J),
      detectPlatform url = some .bilibili →
      extractVideoId url = some vid →
      db.bilibili_video_analyses.filter
        (fun x => x.bvid == some vid || x.aid == some vid) = [r] →
      r.topics = some tp →
      (checkVideoCacheHandler db user (some url)).2 =
        .cachedTrue vid .bilibili tp r.transcript
          ⟨r.title, r.author, r.duration, r.thumbnail_url⟩ r.summary
          r.suggested_questions r.created_at) ∧
    (∀ (db : CacheDb J) (user : Option String) (url vid : String),
      detectPlatform url = some .bilibili →
      extractVideoId url = some vid →
      (singleWhere (fun x => x.bvid == some vid || x.aid == some vid)
          db.bilibili_video_analyses = none ∨
        ∃ r, singleWhere (fun x => x.bvid == some vid || x.aid == some vid)
          db.bilibili_video_analyses = some r ∧ r.topics = none) →
      (checkVideoCacheHandler db user (some url)).2 =
        .cachedFalse vid .bilibili) ∧
    (∀ (db : CacheDb J) (user : Option String) (url vid : String)
        (r : YtRow J) (tp : J),
      detectPlatform url = some .youtube →
      extractVideoId url = some vid →
      db.video_analyses.filter (fun x => x.youtube_id == vid) = [r] →
      r.topics = some tp →
      (checkVideoCacheHandler db user (some url)).2 =
        .cachedTrue vid .youtube tp r.transcript
          ⟨r.title, r.author, r.duration, r.thumbnail_url⟩ r.summary
          r.suggested_questions r.created_at) := by
  refine ⟨?_, ?_, ?_, ?_⟩
  · intro db user url a ha
    match url with
    | none => simp [checkVideoCacheHandler] at ha
    | some u =>
        rw [checkVideoCacheHandler] at ha
        match hdp : detectPlatform u with
        | none => rw [hdp] at ha; simp at ha
        | some platform =>
            rw [hdp] at ha
            match hev : extractVideoId u with
            | none => rw [hev] at ha; simp at ha
            | some vid =>
                rw [hev] at ha
                have main : ∀ (p : Platform) (qa : CacheAction)
                    (hqa : qa ≠ CacheAction.callYouTubeProvider ∧
                      qa ≠ CacheAction.callBilibiliProvider)
                    (found : Option (FoundRow J)),
                    a ∈ (cacheFinish p vid qa user found).1 →
                    a ≠ CacheAction.callYouTubeProvider ∧
                    a ≠ CacheAction.callBilibiliProvider := by
                  intro p qa hqa found hmem
                  match found with
                  | none => simp [cacheFinish] at hmem; simp [hmem, hqa]
                  | some f =>
                      match hft : f.topics with
                      | none =>
                          simp [cacheFinish, hft] at hmem
                          simp [hmem, hqa]
                      | some tp =>
                          simp [cacheFinish, hft] at hmem
                          match user with
                          | none =>
                              simp at hmem
                              simp [hmem, hqa]
                          | some uid =>
                              simp at hmem
                              rcases hmem with h | h <;> simp [h, hqa]
                cases platform with
                | youtube => exact main _ _ (by simp) _ ha
                | bilibili => exact main _ _ (by simp) _ ha
  · intro db user url vid r tp hdp hev hfilter htp
    rw [checkVideoCacheHandler, hdp, hev]
    dsimp only
    rw [show singleWhere (fun x => x.bvid == some vid || x.aid == some vid)
      db.bilibili_video_analyses = some r from by rw [singleWhere, hfilter]]
    simp [cacheFinish, biliFound, htp]
  · intro db user url vid hdp hev hcase
    rw [checkVideoCacheHandler, hdp, hev]
    dsimp only
    rcases hcase with hnone | ⟨r, hsome, htp⟩
    · rw [hnone]
      simp [cacheFinish]
    · rw [hsome]
      simp [cacheFinish, biliFound, htp]
  · intro db user url vid r tp hdp hev hfilter htp
    rw [checkVideoCacheHandler, hdp, hev]
    dsimp only
    rw [show singleWhere (fun x => x.youtube_id == vid)
      db.video_analyses = some r from by rw [singleWhere, hfilter]]
    simp [cacheFinish, ytFound, htp]

/-- A concrete cached Bilibili analysis row for the cache-check witness. -/
def c9Row : BiliRow String :=
  { id := 3, bvid := some "BV1xx411c7mD", aid := none, title := "T"
    author := some "A", duration := 9, thumbnail_url := some "th"
    transcript := "TR", topics := some "TP", summary := some "SU"
    suggested_questions := some "QQ", model_used := some "m"
    created_at := 4, updated_at := 5 }

/-- Witness for `checkCache_spec` on a one-row Bilibili table. -/
theorem checkCache_spec_witness :
    detectPlatform "https://www.bilibili.com/video/BV1xx411c7mD" =
      some Platform.bilibili ∧
    extractVideoId "https://www.bilibili.com/video/BV1xx411c7mD" =
      some "BV1xx411c7mD" ∧
    (checkVideoCacheHandler ⟨[], [c9Row]⟩ (some "u1")
      (some "https://www.bilibili.com/video/BV1xx411c7mD")).2 =
      .cachedTrue "BV1xx411c7mD" .bilibili "TP" "TR"
        ⟨"T", some "A", 9, some "th"⟩ (some "SU") (some "QQ") 4 ∧
    (checkVideoCacheHandler (J := String) ⟨[], []⟩ none
      (some "https://www.bilibili.com/video/BV1xx411c7mD")).2 =
      .cachedFalse "BV1xx411c7mD" .bilibili := by
  obtain ⟨hnp, htrue, hfalse, hyt⟩ := checkCache_spec (J := String)
  refine ⟨by decide, by decide, ?_, ?_⟩
  · exact htrue ⟨[], [c9Row]⟩ (some "u1") _ "BV1xx411c7mD" c9Row "TP"
      (by decide) (by decide) (by decide) rfl
  · exact hfalse ⟨[], []⟩ none _ "BV1xx411c7mD" (by decide) (by decide)
      (Or.inl rfl)

/-! ## The analyze-page orchestrator (`src/app/analyze/[videoId]/page.tsx`)

`processVideo` is modelled as a pure function from an environment — the
authentication state, the client-side rate-limit state, and the outcome of
every network request the code can issue — to the page state it leaves
behind and the ordered list of externally observable actions it performs.
JSON payloads the code never inspects are opaque type parameters
(`T` transcript data, `P` topics, `S` summary content, `V` video info);
the external helpers `normalizeTranscript` and `hydrateTopicsWithTranscript`
(from `src/lib`, not under the sources given) are abstract function
parameters.  Purely presentational state (loading stages, timers, playback)
is not tracked. -/

def GUEST_LIMIT_MESSAGE : String := "您已用完今日免费分析次数。请登录以继续使用。"

def AUTH_LIMIT_MESSAGE : String := "您每天可以分析5个视频。请明天再来。"

def DEFAULT_CLIENT_ERROR : String := "出现错误，请重试。"

/-- `String.prototype.toLowerCase` restricted to the ASCII/CJK strings that
occur here (CJK characters are unaffected by case mapping). -/
def asciiLowerStr (s : String) : String := ⟨s.toList.map lowerAscii⟩

/-- `String.prototype.includes`. -/
def strIncludes (s sub : String) : Bool := hasSub false sub.toList s.toList

/-- `normalizeErrorMessage` (page.tsx lines 38-51). -/
def normalizeErrorMessage (message : Option String) (fallback : String) :
    String :=
  let trimmed := (message.getD "").trim
  let baseMessage := if trimmed.length > 0 then trimmed else fallback
  let normalizedSource := asciiLowerStr (trimmed ++ " " ++ baseMessage)
  if strIncludes normalizedSource "user aborted request" ||
      strIncludes normalizedSource "unsupported transcript language" then
    "目前仅支持带有中文字幕的视频。请选择启用了中文字幕的视频。"
  else baseMessage

/-- The `{error?, details?, message?, requiresAuth?}` JSON shape of API
error responses, as the page reads it. -/
structure ApiErrorBody where
  error : Option String
  details : Option String
  message : Option String
  requiresAuth : Bool
  deriving DecidableEq, Repr

/-- `buildApiErrorMessage` (page.tsx lines 53-81). -/
def buildApiErrorMessage (errorData : Option ApiErrorBody) (fallback : String) :
    String :=
  match errorData with
  | none => normalizeErrorMessage none fallback
  | some record =>
      let errorText := match record.error with
        | some s => if s.trim.length > 0 then s.trim else ""
        | none => ""
      let detailsText := match record.details with
        | some s => if s.trim.length > 0 then s.trim else ""
        | none => ""
      if errorText ≠ "" ∧ detailsText ≠ "" then
        normalizeErrorMessage (some (errorText ++ ": " ++ detailsText)) fallback
      else if detailsText ≠ "" then
        normalizeErrorMessage (some detailsText) fallback
      else if errorText ≠ "" then
        normalizeErrorMessage (some errorText) fallback
      else
        normalizeErrorMessage none fallback

/-- Outcome of a `fetch` guarded by an abort controller. -/
inductive FetchOut (β : Type) where
  | netError (msg : String)
  | aborted
  | resp (ok : Bool) (status : Nat) (body : β)
  deriving DecidableEq, Repr

/-- Outcome of a plain `fetch` (no abort signal). -/
inductive PFetchOut (β : Type) where
  | netError (msg : String)
  | resp (ok : Bool) (status : Nat) (body : β)
  deriving DecidableEq, Repr

/-- Outcome of `response.json()`: a parsed value, or a thrown parse error
with its `name === 'AbortError'` flag and its message. -/
inductive JsonParse (β : Type) where
  | ok (val : β)
  | parseFail (abortLike : Bool) (msg : String)
  deriving DecidableEq, Repr

/-- Body of a `/api/check-video-cache` response. -/
structure CacheBody (T P S V : Type) where
  cached : Bool
  transcript : T
  topics : Option (List P)
  videoInfo : Option V
  summary : Option S
  suggestedQuestions : Option (List String)
  deriving DecidableEq, Repr

/-- The `remaining` field of a `/api/check-limit` response. -/
inductive RemField where
  | absent
  | null
  | num (n : Int)
  deriving DecidableEq, Repr

/-- Body of a `/api/check-limit` response. -/
structure LimitBody where
  isAuthenticated : Bool
  canGenerate : Option Bool
  remaining : RemField
  deriving DecidableEq, Repr

/-- `checkRateLimit`'s update of `authLimitReached` (page.tsx line 316):
`Boolean(data?.isAuthenticated && data?.canGenerate === false)`; a failed
fetch yields `null` data and `false`. -/
def authLimitReachedOf (data : Option LimitBody) : Bool :=
  match data with
  | none => false
  | some d => d.isAuthenticated && (d.canGenerate == some false)

/-- Body of a `/api/transcript` response. -/
structure TransBody (T : Type) where
  errJson : Option ApiErrorBody
  json : JsonParse T
  deriving DecidableEq, Repr

/-- Parsed OK-body of a `/api/video-analysis` response. -/
structure TopicsOkBody (P : Type) where
  topics : Option (List P)
  themes : Option (List String)
  topicCandidates : Option (List P)
  deriving DecidableEq, Repr

/-- Body of a `/api/video-analysis` response. -/
structure TopicsBody (P : Type) where
  errJson : Option ApiErrorBody
  json : JsonParse (TopicsOkBody P)
  deriving DecidableEq, Repr

/-- Body of a `/api/generate-summary` response; `summaryContent` may be
absent. -/
structure SummaryBody (S : Type) where
  errJson : Option ApiErrorBody
  json : JsonParse (Option S)
  deriving DecidableEq, Repr

/-- Parsed OK-body of a `/api/video-info` response; `hasErrorField` is the
truthiness of `videoInfoData.error`. -/
structure VInfoOk (V : Type) where
  data : V
  hasErrorField : Bool
  deriving DecidableEq, Repr

/-- Body of a `/api/video-info` response. -/
structure VInfoBody (V : Type) where
  json : JsonParse (VInfoOk V)
  deriving DecidableEq, Repr

/-- The `videoInfo` field of the save-analysis payload: the fetched
metadata, or the hard-coded placeholder object (page.tsx lines 960-965). -/
inductive SavePayloadInfo (V : Type) where
  | real (v : V)
  | placeholder
  deriving DecidableEq, Repr

/-- Externally observable actions of `processVideo`, in program order. -/
inductive PvAction (V : Type) where
  | storeSession (key value : String)
  | fetchCheckCache
  | fetchCheckLimit
  | toastError (msg : String)
  | routerPush (path : String)
  | fetchTranscript
  | fetchVideoInfo
  | fetchQuickPreview
  | fetchTopics
  | fetchSummary
  | abortSummary
  | fetchSaveAnalysis (videoInfo : SavePayloadInfo V)
  | fetchSuggestedQuestions
  | fetchThemesBackground
  | fetchSummaryBackground
  deriving DecidableEq, Repr

/-- The environment `processVideo` runs in: client state at call time plus
the outcome of every request it may issue. -/
structure PvEnv (T P S V : Type) where
  user : Bool
  authLimitReached : Bool
  hasRedirectedForLimit : Bool
  remaining : Option Int
  videoIdState : Option String
  routeVideoId : Option String
  cacheFetch : PFetchOut (JsonParse (CacheBody T P S V))
  limitFetch : Option LimitBody
  transcriptFetch : FetchOut (TransBody T)
  videoInfoFetch : FetchOut (VInfoBody V)
  topicsFetch : FetchOut (TopicsBody P)
  summaryFetch : FetchOut (SummaryBody S)

/-- The page state `processVideo` leaves behind, together with its action
trace.  `errorMsg = none` models the cleared error banner. -/
structure PvResult (T P S V : Type) where
  actions : List (PvAction V)
  errorMsg : Option String
  isRateLimitError : Bool
  transcript : Option T
  videoInfo : Option V
  topics : List P
  themes : List String
  takeawaysContent : Option S
  takeawaysError : Option String
  showChatTab : Bool

/-- The freshly reset page state (page.tsx lines 435-463). -/
def pvInit {T P S V : Type} (acts : List (PvAction V)) : PvResult T P S V :=
  { actions := acts
    errorMsg := none
    isRateLimitError := false
    transcript := none
    videoInfo := none
    topics := []
    themes := []
    takeawaysContent := none
    takeawaysError := none
    showChatTab := false }

/-- The `catch` block (page.tsx lines 1063-1069): surface the thrown
message through `normalizeErrorMessage`. -/
def pvThrow {T P S V : Type} (st : PvResult T P S V) (msg : String) :
    PvResult T P S V :=
  { st with errorMsg := some (normalizeErrorMessage (some msg) "An error occurred") }

/-- `redirectToAuthForLimit` (page.tsx lines 212-240): once per page, stash
the pending video ID (anonymous users only) and a limit message, then
navigate to the sign-in flow. -/
def redirectToAuthForLimit {V : Type} (user hasRedirected : Bool)
    (message pendingVideoId videoIdState routeVideoId : Option String) :
    List (PvAction V) :=
  if hasRedirected then []
  else
    let trimmedMessage := match message with
      | some m => if m.trim.length > 0 then m.trim else GUEST_LIMIT_MESSAGE
      | none => GUEST_LIMIT_MESSAGE
    let targetVideoId := pendingVideoId <|> videoIdState <|> routeVideoId
    (match targetVideoId with
      | some tv => if user then [] else [.storeSession "pendingVideoId" tv]
      | none => []) ++
    [.storeSession "limitRedirectMessage" trimmedMessage,
     .routerPush "/?auth=limit"]

/-- Result of `checkGenerationLimit`: whether generation may proceed, the
actions performed, and the error state set. -/
structure LimitCheckOut (V : Type) where
  allowed : Bool
  acts : List (PvAction V)
  errorMsg : Option String
  isRateLimitError : Bool

/-- `checkGenerationLimit` (page.tsx lines 386-414), at a call site that
always passes `remainingOverride` as a number or null.  An authenticated
user is blocked exactly when `authLimitReached`; an anonymous user is
redirected when the effective remaining count is a number other than the
`-1` sentinel and `≤ 0`. -/
def checkGenerationLimit {V : Type} (user authLimitReached hasRedirected : Bool)
    (videoIdState routeVideoId : Option String)
    (pendingVideoId : Option String) (remainingOverride : Option Int) :
    LimitCheckOut V :=
  if user then
    if authLimitReached then
      { allowed := false
        acts := [.toastError AUTH_LIMIT_MESSAGE]
        errorMsg := some AUTH_LIMIT_MESSAGE
        isRateLimitError := true }
    else
      { allowed := true, acts := [], errorMsg := none, isRateLimitError := false }
  else
    match remainingOverride with
    | some n =>
        if n ≠ -1 ∧ n ≤ 0 then
          { allowed := false
            acts := redirectToAuthForLimit user hasRedirected none
              pendingVideoId videoIdState routeVideoId
            errorMsg := none
            isRateLimitError := false }
        else
          { allowed := true, acts := [], errorMsg := none
            isRateLimitError := false }
    | none =>
        { allowed := true, acts := [], errorMsg := none
          isRateLimitError := false }

/-- The message the transcript fetch's `.catch` rethrows (page.tsx lines
671-676). -/
def transcriptRejectMsg {T : Type} (f : FetchOut T) : String :=
  match f with
  | .aborted => "字幕请求超时，请重试。"
  | _ => "网络错误：无法获取字幕。请确保服务器正在运行。"

/-- The message the topics fetch's `.catch` rethrows (page.tsx lines
797-802). -/
def topicsRejectMsg {T : Type} (f : FetchOut T) : String :=
  match f with
  | .aborted => "主题生成被取消或中断，请重试。"
  | _ => "网络错误：无法生成主题。请检查您的连接。"

/-- `{ error: "Unknown error" }`, the fallback body when an error response
fails to parse. -/
def unknownErrorBody : ApiErrorBody :=
  { error := some "Unknown error", details := none, message := none
    requiresAuth := false }

/-- The hit path (page.tsx lines 484-636): populate everything from the
cache and refresh themes (and, when absent, the summary) in the
background. -/
def pvHitPath {T P S V : Type} (normTr : T → T)
    (hydrate : List P → T → List P) (user : Bool) (vid : String)
    (acts : List (PvAction V)) (cacheData : CacheBody T P S V) :
    PvResult T P S V :=
  let sanitized := normTr cacheData.transcript
  let hydrated := hydrate (cacheData.topics.getD []) sanitized
  let acts := acts ++
    (if user then [] else [.storeSession "pendingVideoId" vid]) ++
    [.fetchThemesBackground] ++
    (match cacheData.summary with
      | some _ => []
      | none => [.fetchSummaryBackground])
  { actions := acts
    errorMsg := none
    isRateLimitError := false
    transcript := some sanitized
    videoInfo := cacheData.videoInfo
    topics := hydrated
    themes := []
    takeawaysContent := cacheData.summary
    takeawaysError := none
    showChatTab := true }

/-- Settling of the summary request (page.tsx lines 900-919): either a value
to surface, an inline summary error, or — when the OK-body fails to parse —
an exception that aborts the whole operation (`.error`). -/
def pvSummarySettle {S : Type} (f : FetchOut (SummaryBody S)) :
    Except String (Option S × Option String) :=
  match f with
  | .resp sok _ sb =>
      if sok then
        match sb.json with
        | .ok smOpt => .ok (smOpt, none)
        | .parseFail _ pmsg => .error pmsg
      else
        .ok (none, some (buildApiErrorMessage (some (sb.errJson.getD
          unknownErrorBody)) "生成总结失败，请重试。"))
  | .aborted => .ok (none, some "总结生成超时。视频可能过长。")
  | .netError m => .ok (none, some (if m.length > 0 then m else "生成总结失败，请重试。"))

/-- The generation stage of the miss path (page.tsx lines 777-1061), entered
with the normalized transcript in hand: issue the topic and summary requests
in parallel, settle topics first — aborting the summary request on any
topics failure — then settle the summary, batch the state update, and kick
off the background persistence requests. -/
def pvTopicsStage {T P S V : Type} (hydrate : List P → T → List P)
    (env : PvEnv T P S V) (vid : String) (normalized : T)
    (fetchedVideoInfo : Option V) (acts : List (PvAction V)) :
    PvResult T P S V :=
  let base : PvResult T P S V :=
    { actions := acts
      errorMsg := none
      isRateLimitError := false
      transcript := some normalized
      videoInfo := fetchedVideoInfo
      topics := []
      themes := []
      takeawaysContent := none
      takeawaysError := none
      showChatTab := true }
  match env.topicsFetch with
  | .netError m =>
      pvThrow { base with actions := acts ++ [.abortSummary] }
        (topicsRejectMsg (FetchOut.netError (β := TopicsBody P) m))
  | .aborted =>
      pvThrow { base with actions := acts ++ [.abortSummary] }
        (topicsRejectMsg (FetchOut.aborted (β := TopicsBody P)))
  | .resp ok status tb =>
      if ok then
        match tb.json with
        | .parseFail _ pmsg => pvThrow base pmsg
        | .ok td =>
            let generatedTopics := hydrate (td.topics.getD []) normalized
            let generatedThemes := td.themes.getD []
            match pvSummarySettle env.summaryFetch with
            | .error pmsg => pvThrow base pmsg
            | .ok (gen, terr) =>
                { base with
                  actions := acts ++ [.fetchCheckLimit,
                    .fetchSaveAnalysis (match fetchedVideoInfo with
                      | some v => .real v
                      | none => .placeholder),
                    .fetchSuggestedQuestions]
                  topics := generatedTopics
                  themes := generatedThemes
                  takeawaysContent := gen
                  takeawaysError := match gen with
                    | some _ => none
                    | none => terr }
      else
        let errData := tb.errJson.getD unknownErrorBody
        if status = 429 && errData.requiresAuth then
          { base with actions := (acts ++ [.abortSummary] ++
              redirectToAuthForLimit env.user env.hasRedirectedForLimit
                errData.message (some vid) env.videoIdState env.routeVideoId) }
        else if status = 429 then
          let msgRaw := (errData.message.getD "").trim
          let errRaw := (errData.error.getD "").trim
          let limitMessage :=
            if msgRaw.length > 0 then msgRaw
            else if errRaw.length > 0 then errRaw
            else AUTH_LIMIT_MESSAGE
          pvThrow { base with
            actions := acts ++ [.fetchCheckLimit, .abortSummary]
            isRateLimitError := true } limitMessage
        else
          pvThrow { base with actions := acts ++ [.abortSummary] }
            (buildApiErrorMessage (some errData) "Failed to generate topics")

/-- The miss path (page.tsx lines 639-716): refresh the rate limit for
anonymous users, enforce it, then fetch transcript and metadata in
parallel — the transcript being required, the metadata optional. -/
def pvMissPath {T P S V : Type} (normTr : T → T)
    (hydrate : List P → T → List P) (env : PvEnv T P S V) (vid : String)
    (acts : List (PvAction V)) : PvResult T P S V :=
  let acts := acts ++ (if env.user then [] else [.fetchCheckLimit])
  let effRem : Option Int :=
    if env.user then env.remaining
    else
      match env.limitFetch with
      | none => env.remaining
      | some d =>
          match d.remaining with
          | .absent => env.remaining
          | .null => none
          | .num n => some n
  let lc : LimitCheckOut V := checkGenerationLimit env.user env.authLimitReached
    env.hasRedirectedForLimit env.videoIdState env.routeVideoId (some vid) effRem
  if lc.allowed then
    let acts := acts ++ [.fetchTranscript, .fetchVideoInfo]
    match env.transcriptFetch with
    | .netError m =>
        pvThrow (pvInit acts) (transcriptRejectMsg
          (FetchOut.netError (β := TransBody T) m))
    | .aborted =>
        pvThrow (pvInit acts) (transcriptRejectMsg
          (FetchOut.aborted (β := TransBody T)))
    | .resp tok _ tbody =>
        if tok then
          match tbody.json with
          | .parseFail ab _ =>
              pvThrow (pvInit acts)
                (if ab then "字幕处理超时。视频可能过长，请重试。"
                 else "处理字幕数据失败，请重试。")
          | .ok rawT =>
              let normalized := normTr rawT
              let fetchedVideoInfo : Option V :=
                match env.videoInfoFetch with
                | .resp vok _ vb =>
                    if vok then
                      match vb.json with
                      | .ok vj => if vj.hasErrorField then none else some vj.data
                      | .parseFail _ _ => none
                    else none
                | _ => none
              let acts := acts ++ [.fetchQuickPreview, .fetchTopics,
                .fetchSummary]
              pvTopicsStage hydrate env vid normalized fetchedVideoInfo acts
        else
          pvThrow (pvInit acts) (buildApiErrorMessage
            (some (tbody.errJson.getD unknownErrorBody))
            "Failed to fetch transcript")
  else
    { actions := acts ++ lc.acts
      errorMsg := lc.errorMsg
      isRateLimitError := lc.isRateLimitError
      transcript := none
      videoInfo := none
      topics := []
      themes := []
      takeawaysContent := none
      takeawaysError := none
      showChatTab := false }

/-- `processVideo` (page.tsx lines 416-1085), as a pure function of the
environment: validate the URL, reset the page state, check the cache, and
take the hit or miss path. -/
def processVideo {T P S V : Type} (normTr : T → T)
    (hydrate : List P → T → List P) (env : PvEnv T P S V) (url : String) :
    PvResult T P S V :=
  match extractVideoId url, detectPlatform url with
  | some vid, some _ =>
      let acts : List (PvAction V) :=
        (if env.user then [] else [.storeSession "pendingVideoId" vid]) ++
        [.fetchCheckCache]
      (match env.cacheFetch with
      | .netError m => pvThrow (pvInit acts) m
      | .resp ok _ body =>
          if ok then
            match body with
            | .parseFail _ pmsg => pvThrow (pvInit acts) pmsg
            | .ok cacheData =>
                if cacheData.cached then
                  pvHitPath normTr hydrate env.user vid acts cacheData
                else
                  pvMissPath normTr hydrate env vid acts
          else
            pvMissPath normTr hydrate env vid acts)
  | _, _ => pvThrow (pvInit []) "无效的视频URL。请提供YouTube或Bilibili链接。"

/-- Claim C5: in the miss-path orchestration, an anonymous user whose
server-reported remaining count is 0 is redirected to the sign-in flow with
the pending video ID persisted, and no transcript-fetch (or generation)
request is ever issued; an authenticated user whose server-reported
`canGenerate` is false gets the fixed daily-limit message and likewise no
transcript or generation request. -/
theorem rate_limit_gate {T P S V : Type} :
    (∀ (normTr : T → T) (hydrate : List P → T → List P) (url vid : String)
        (p : Platform) (vis rvi : Option String) (rem : Option Int) (s1 : Nat)
        (cd : CacheBody T P S V) (lb : LimitBody)
        (trF : FetchOut (TransBody T)) (viF : FetchOut (VInfoBody V))
        (toF : FetchOut (TopicsBody P)) (suF : FetchOut (SummaryBody S)),
      extractVideoId url = some vid →
      detectPlatform url = some p →
      cd.cached = false →
      lb.remaining = .num 0 →
      let env : PvEnv T P S V :=
        ⟨false, false, false, rem, vis, rvi, .resp true s1 (.ok cd), some lb,
          trF, viF, toF, suF⟩
      let r := processVideo normTr hydrate env url
      (PvAction.routerPush "/?auth=limit") ∈ r.actions ∧
      (PvAction.storeSession "pendingVideoId" vid) ∈ r.actions ∧
      PvAction.fetchTranscript ∉ r.actions ∧
      PvAction.fetchTopics ∉ r.actions ∧
      PvAction.fetchSummary ∉ r.actions) ∧
    (∀ (normTr : T → T) (hydrate : List P → T → List P) (url vid : String)
        (p : Platform) (hr : Bool) (vis rvi : Option String) (rem : Option Int)
        (s1 : Nat) (cd : CacheBody T P S V) (lb : LimitBody)
        (lf : Option LimitBody) (trF : FetchOut (TransBody T))
        (viF : FetchOut (VInfoBody V)) (toF : FetchOut (TopicsBody P))
        (suF : FetchOut (SummaryBody S)),
      extractVideoId url = some vid →
      detectPlatform url = some p →
      cd.cached = false →
      lb.isAuthenticated = true →
      lb.canGenerate = some false →
      let env : PvEnv T P S V :=
        ⟨true, authLimitReachedOf (some lb), hr, rem, vis, rvi,
          .resp true s1 (.ok cd), lf, trF, viF, toF, suF⟩
      let r := processVideo normTr hydrate env url
      r.errorMsg = some AUTH_LIMIT_MESSAGE ∧
      r.isRateLimitError = true ∧
      (PvAction.toastError AUTH_LIMIT_MESSAGE) ∈ r.actions ∧
      PvAction.fetchTranscript ∉ r.actions ∧
      PvAction.fetchTopics ∉ r.actions ∧
      PvAction.fetchSummary ∉ r.actions) := by
  constructor
  · intro normTr hydrate url vid p vis rvi rem s1 cd lb trF viF toF suF
      hext hdet hcached hrem
    simp only [processVideo, hext, hdet, pvMissPath, pvInit,
      checkGenerationLimit, redirectToAuthForLimit, hcached, hrem,
      Bool.false_eq_true, if_false]
    simp
  · intro normTr hydrate url vid p hr vis rvi rem s1 cd lb lf trF viF toF suF
      hext hdet hcached hauth hcan
    have halr : authLimitReachedOf (some lb) = true := by
      simp [authLimitReachedOf, hauth, hcan]
    simp only [processVideo, hext, hdet, pvMissPath, pvInit,
      checkGenerationLimit, halr, hcached]
    simp

/-- Claim C6: on the miss path, when the topic request rejects while the
summary request is in flight, the orchestrator aborts the summary request
(the `abortSummary` action follows `fetchSummary` in the trace), propagates
the topic request's mapped error as the operation's error, and never
surfaces any summary content or summary error. -/
theorem topics_failure_aborts_summary {T P S V : Type}
    (normTr : T → T) (hydrate : List P → T → List P) (url vid : String)
    (p : Platform) (hr : Bool) (vis rvi : Option String) (rem : Option Int)
    (s1 s2 : Nat) (cd : CacheBody T P S V) (lf : Option LimitBody)
    (te : Option ApiErrorBody) (rawT : T) (viF : FetchOut (VInfoBody V))
    (toF : FetchOut (TopicsBody P)) (suF : FetchOut (SummaryBody S))
    (hext : extractVideoId url = some vid)
    (hdet : detectPlatform url = some p)
    (hcached : cd.cached = false)
    (htopics : (∃ m, toF = .netError m) ∨ toF = .aborted) :
    (processVideo normTr hydrate
      ⟨true, false, hr, rem, vis, rvi, .resp true s1 (.ok cd), lf,
        .resp true s2 ⟨te, .ok rawT⟩, viF, toF, suF⟩ url).actions =
      [.fetchCheckCache, .fetchTranscript, .fetchVideoInfo,
       .fetchQuickPreview, .fetchTopics, .fetchSummary, .abortSummary] ∧
    (processVideo normTr hydrate
      ⟨true, false, hr, rem, vis, rvi, .resp true s1 (.ok cd), lf,
        .resp true s2 ⟨te, .ok rawT⟩, viF, toF, suF⟩ url).errorMsg =
      some (normalizeErrorMessage (some (topicsRejectMsg toF))
        "An error occurred") ∧
    (processVideo normTr hydrate
      ⟨true, false, hr, rem, vis, rvi, .resp true s1 (.ok cd), lf,
        .resp true s2 ⟨te, .ok rawT⟩, viF, toF, suF⟩ url).takeawaysContent =
      none ∧
    (processVideo normTr hydrate
      ⟨true, false, hr, rem, vis, rvi, .resp true s1 (.ok cd), lf,
        .resp true s2 ⟨te, .ok rawT⟩, viF, toF, suF⟩ url).takeawaysError =
      none := by
  rcases htopics with ⟨m, h⟩ | h <;> subst h <;>
    simp only [processVideo, hext, hdet, pvMissPath, pvTopicsStage, pvThrow,
      pvInit, checkGenerationLimit, hcached] <;>
    simp [topicsRejectMsg]

/-! ## The `/api/video-info` handler (`src/app/api/video-info/route.ts`) -/

/-- The minimal metadata object the route returns when a provider fails. -/
structure MinimalVideoInfo where
  videoId : String
  title : String
  author : String
  thumbnail : String
  duration : Option Int
  deriving DecidableEq, Repr

/-- The placeholder for a failed Bilibili metadata lookup (route.ts lines
51-58). -/
def bilibiliPlaceholder (vid : String) : MinimalVideoInfo :=
  ⟨vid, "Bilibili视频", "未知", "", none⟩

/-- The placeholder for a failed YouTube oEmbed lookup (route.ts lines
108-117 and 131-140). -/
def youtubePlaceholder (vid : String) : MinimalVideoInfo :=
  ⟨vid, "YouTube Video", "Unknown",
   "https://img.youtube.com/vi/" ++ vid ++ "/maxresdefault.jpg", none⟩

/-- Responses of the video-info route's platform branches. -/
inductive VideoInfoRouteResp (V : Type) where
  | success (v : V)
  | minimal (m : MinimalVideoInfo)
  deriving DecidableEq, Repr

/-- The Bilibili branch (route.ts lines 34-59): convert the provider data on
success, degrade to the fixed placeholder on any provider error. -/
def videoInfoRouteBilibili {V : Type} (vid : String)
    (provider : Except String V) : VideoInfoRouteResp V :=
  match provider with
  | .ok d => .success d
  | .error _ => .minimal (bilibiliPlaceholder vid)

/-- A parsed oEmbed body. -/
structure OembedBody where
  title : Option String
  author_name : Option String
  thumbnail_url : Option String
  deriving DecidableEq, Repr

/-- Outcome of the oEmbed request. -/
inductive OembedOut where
  | fetchError
  | respNotOk
  | okBody (b : OembedBody)
  deriving DecidableEq, Repr

/-- The YouTube oEmbed fallback (route.ts lines 102-141): on a non-OK
response or a fetch error, the fixed placeholder; on success, the oEmbed
fields with `||`-style fallbacks and no duration. -/
def videoInfoRouteOembed (vid : String) (o : OembedOut) : MinimalVideoInfo :=
  match o with
  | .fetchError => youtubePlaceholder vid
  | .respNotOk => youtubePlaceholder vid
  | .okBody b =>
      ⟨vid, jsOrString (b.title.getD "") "YouTube Video",
       jsOrString (b.author_name.getD "") "Unknown",
       jsOrString (b.thumbnail_url.getD "")
         ("https://img.youtube.com/vi/" ++ vid ++ "/maxresdefault.jpg"),
       none⟩

/-- Claim C7: transcript-fetch failure (network error, timeout, or non-OK
response) aborts the analysis — an error is surfaced and no generation
request is issued — while metadata-fetch failure does not: the analysis
proceeds, the page keeps no video info, and the persisted analysis carries
the placeholder metadata; moreover the video-info route itself degrades a
provider failure to a fixed placeholder body. -/
theorem transcript_fatal_metadata_optional {T P S V : Type} :
    (∀ (normTr : T → T) (hydrate : List P → T → List P) (url vid : String)
        (p : Platform) (hr : Bool) (vis rvi : Option String)
        (rem : Option Int) (s1 : Nat) (cd : CacheBody T P S V)
        (lf : Option LimitBody) (trF : FetchOut (TransBody T))
        (viF : FetchOut (VInfoBody V)) (toF : FetchOut (TopicsBody P))
        (suF : FetchOut (SummaryBody S)),
      extractVideoId url = some vid →
      detectPlatform url = some p →
      cd.cached = false →
      ((∃ m, trF = .netError m) ∨ trF = .aborted ∨
        (∃ s2 tb, trF = .resp false s2 tb)) →
      (processVideo normTr hydrate
        ⟨true, false, hr, rem, vis, rvi, .resp true s1 (.ok cd), lf,
          trF, viF, toF, suF⟩ url).errorMsg.isSome = true ∧
      PvAction.fetchTopics ∉ (processVideo normTr hydrate
        ⟨true, false, hr, rem, vis, rvi, .resp true s1 (.ok cd), lf,
          trF, viF, toF, suF⟩ url).actions ∧
      PvAction.fetchSummary ∉ (processVideo normTr hydrate
        ⟨true, false, hr, rem, vis, rvi, .resp true s1 (.ok cd), lf,
          trF, viF, toF, suF⟩ url).actions) ∧
    (∀ (normTr : T → T) (hydrate : List P → T → List P) (url vid : String)
        (p : Platform) (hr : Bool) (vis rvi : Option String)
        (rem : Option Int) (s1 s2 s3 s4 : Nat) (cd : CacheBody T P S V)
        (lf : Option LimitBody) (te te2 se : Option ApiErrorBody) (rawT : T)
        (viF : FetchOut (VInfoBody V)) (td : TopicsOkBody P)
        (smOpt : Option S),
      extractVideoId url = some vid →
      detectPlatform url = some p →
      cd.cached = false →
      ((∃ m, viF = .netError m) ∨ viF = .aborted ∨
        (∃ s5 vb, viF = .resp false s5 vb)) →
      (processVideo normTr hydrate
        ⟨true, false, hr, rem, vis, rvi, .resp true s1 (.ok cd), lf,
          .resp true s2 ⟨te, .ok rawT⟩, viF, .resp true s3 ⟨te2, .ok td⟩,
          .resp true s4 ⟨se, .ok smOpt⟩⟩ url).errorMsg = none ∧
      PvAction.fetchTopics ∈ (processVideo normTr hydrate
        ⟨true, false, hr, rem, vis, rvi, .resp true s1 (.ok cd), lf,
          .resp true s2 ⟨te, .ok rawT⟩, viF, .resp true s3 ⟨te2, .ok td⟩,
          .resp true s4 ⟨se, .ok smOpt⟩⟩ url).actions ∧
      PvAction.fetchSummary ∈ (processVideo normTr hydrate
        ⟨true, false, hr, rem, vis, rvi, .resp true s1 (.ok cd), lf,
          .resp true s2 ⟨te, .ok rawT⟩, viF, .resp true s3 ⟨te2, .ok td⟩,
          .resp true s4 ⟨se, .ok smOpt⟩⟩ url).actions ∧
      (processVideo normTr hydrate
        ⟨true, false, hr, rem, vis, rvi, .resp true s1 (.ok cd), lf,
          .resp true s2 ⟨te, .ok rawT⟩, viF, .resp true s3 ⟨te2, .ok td⟩,
          .resp true s4 ⟨se, .ok smOpt⟩⟩ url).videoInfo = none ∧
      (PvAction.fetchSaveAnalysis .placeholder) ∈ (processVideo normTr hydrate
        ⟨true, false, hr, rem, vis, rvi, .resp true s1 (.ok cd), lf,
          .resp true s2 ⟨te, .ok rawT⟩, viF, .resp true s3 ⟨te2, .ok td⟩,
          .resp true s4 ⟨se, .ok smOpt⟩⟩ url).actions) ∧
    (∀ (vid e : String),
      videoInfoRouteBilibili (V := V) vid (.error e) =
        .minimal ⟨vid, "Bilibili视频", "未知", "", none⟩) ∧
    (∀ vid : String,
      videoInfoRouteOembed vid .fetchError = youtubePlaceholder vid ∧
      videoInfoRouteOembed vid .respNotOk = youtubePlaceholder vid) := by
  refine ⟨?_, ?_, fun vid e => rfl, fun vid => ⟨rfl, rfl⟩⟩
  · intro normTr hydrate url vid p hr vis rvi rem s1 cd lf trF viF toF suF
      hext hdet hcached htr
    rcases htr with ⟨m, h⟩ | h | ⟨s2, tb, h⟩ <;> subst h <;>
      simp only [processVideo, hext, hdet, pvMissPath, pvThrow, pvInit,
        checkGenerationLimit, hcached] <;>
      simp [normalizeErrorMessage]
  · intro normTr hydrate url vid p hr vis rvi rem s1 s2 s3 s4 cd lf te te2 se
      rawT viF td smOpt hext hdet hcached hvi
    rcases hvi with ⟨m, h⟩ | h | ⟨s5, vb, h⟩ <;> subst h <;>
      simp only [processVideo, hext, hdet, pvMissPath, pvTopicsStage,
        pvSummarySettle, pvInit, checkGenerationLimit, hcached] <;>
      simp

/-- Witness for `rate_limit_gate` at a concrete environment. -/
theorem rate_limit_gate_witness :
    extractVideoId "https://www.youtube.com/watch?v=dQw4w9WgXcQ" =
      some "dQw4w9WgXcQ" ∧
    (PvAction.routerPush "/?auth=limit") ∈ (processVideo (T := String)
      (P := String) (S := String) (V := String) id (fun tps _ => tps)
      ⟨false, false, false, none, none, none,
        .resp true 200 (.ok ⟨false, "t", none, none, none, none⟩),
        some ⟨false, none, .num 0⟩, .netError "x", .aborted, .netError "x",
        .aborted⟩ "https://www.youtube.com/watch?v=dQw4w9WgXcQ").actions ∧
    (PvAction.storeSession "pendingVideoId" "dQw4w9WgXcQ") ∈
      (processVideo (T := String) (P := String) (S := String) (V := String)
        id (fun tps _ => tps)
        ⟨false, false, false, none, none, none,
          .resp true 200 (.ok ⟨false, "t", none, none, none, none⟩),
          some ⟨false, none, .num 0⟩, .netError "x", .aborted, .netError "x",
          .aborted⟩ "https://www.youtube.com/watch?v=dQw4w9WgXcQ").actions ∧
    PvAction.fetchTranscript ∉
      (processVideo (T := String) (P := String) (S := String) (V := String)
        id (fun tps _ => tps)
        ⟨false, false, false, none, none, none,
          .resp true 200 (.ok ⟨false, "t", none, none, none, none⟩),
          some ⟨false, none, .num 0⟩, .netError "x", .aborted, .netError "x",
          .aborted⟩ "https://www.youtube.com/watch?v=dQw4w9WgXcQ").actions := by
  have h := (rate_limit_gate (T := String) (P := String) (S := String)
      (V := String)).1 id (fun tps _ => tps)
    "https://www.youtube.com/watch?v=dQw4w9WgXcQ" "dQw4w9WgXcQ"
    Platform.youtube none none none 200 ⟨false, "t", none, none, none, none⟩
    ⟨false, none, .num 0⟩ (.netError "x") .aborted (.netError "x") .aborted
    (by decide) (by decide) rfl rfl
  exact ⟨by decide, h.1, h.2.1, h.2.2.1⟩

/-- Witness for `topics_failure_aborts_summary` at a concrete
environment. -/
theorem topics_failure_aborts_summary_witness :
    (processVideo (T := String) (P := String) (S := String) (V := String)
      id (fun tps _ => tps)
      ⟨true, false, false, none, none, none,
        .resp true 200 (.ok ⟨false, "t", none, none, none, none⟩), none,
        .resp true 200 ⟨none, .ok "raw"⟩, .aborted, .netError "boom",
        .aborted⟩ "https://www.youtube.com/watch?v=dQw4w9WgXcQ").actions =
      [.fetchCheckCache, .fetchTranscript, .fetchVideoInfo,
       .fetchQuickPreview, .fetchTopics, .fetchSummary, .abortSummary] ∧
    (processVideo (T := String) (P := String) (S := String) (V := String)
      id (fun tps _ => tps)
      ⟨true, false, false, none, none, none,
        .resp true 200 (.ok ⟨false, "t", none, none, none, none⟩), none,
        .resp true 200 ⟨none, .ok "raw"⟩, .aborted, .netError "boom",
        .aborted⟩ "https://www.youtube.com/watch?v=dQw4w9WgXcQ").takeawaysContent
      = none := by
  have h := topics_failure_aborts_summary (T := String) (P := String)
    (S := String) (V := String) id (fun tps _ => tps)
    "https://www.youtube.com/watch?v=dQw4w9WgXcQ" "dQw4w9WgXcQ"
    Platform.youtube false none none none 200 200
    ⟨false, "t", none, none, none, none⟩ none none "raw" .aborted
    (.netError "boom") .aborted (by decide) (by decide) rfl
    (Or.inl ⟨"boom", rfl⟩)
  exact ⟨h.1, h.2.2.1⟩

/-- Witness for `transcript_fatal_metadata_optional` at concrete
environments. -/
theorem transcript_fatal_metadata_optional_witness :
    (processVideo (T := String) (P := String) (S := String) (V := String)
      id (fun tps _ => tps)
      ⟨true, false, false, none, none, none,
        .resp true 200 (.ok ⟨false, "t", none, none, none, none⟩), none,
        .netError "down", .aborted, .netError "x", .aborted⟩
      "https://www.youtube.com/watch?v=dQw4w9WgXcQ").errorMsg.isSome = true ∧
    PvAction.fetchTopics ∉ (processVideo (T := String) (P := String)
      (S := String) (V := String) id (fun tps _ => tps)
      ⟨true, false, false, none, none, none,
        .resp true 200 (.ok ⟨false, "t", none, none, none, none⟩), none,
        .netError "down", .aborted, .netError "x", .aborted⟩
      "https://www.youtube.com/watch?v=dQw4w9WgXcQ").actions ∧
    (PvAction.fetchSaveAnalysis .placeholder) ∈ (processVideo (T := String)
      (P := String) (S := String) (V := String) id (fun tps _ => tps)
      ⟨true, false, false, none, none, none,
        .resp true 200 (.ok ⟨false, "t", none, none, none, none⟩), none,
        .resp true 200 ⟨none, .ok "raw"⟩, .aborted,
        .resp true 200 ⟨none, .ok ⟨some ["tp"], some ["th"], none⟩⟩,
        .resp true 200 ⟨none, .ok (some "sum")⟩⟩
      "https://www.youtube.com/watch?v=dQw4w9WgXcQ").actions ∧
    videoInfoRouteBilibili (V := String) "BV1xx411c7mD" (.error "timeout") =
      .minimal ⟨"BV1xx411c7mD", "Bilibili视频", "未知", "", none⟩ := by
  have h1 := (transcript_fatal_metadata_optional (T := String) (P := String)
      (S := String) (V := String)).1 id (fun tps _ => tps)
    "https://www.youtube.com/watch?v=dQw4w9WgXcQ" "dQw4w9WgXcQ"
    Platform.youtube false none none none 200
    ⟨false, "t", none, none, none, none⟩ none (.netError "down") .aborted
    (.netError "x") .aborted (by decide) (by decide) rfl
    (Or.inl ⟨"down", rfl⟩)
  have h2 := (transcript_fatal_metadata_optional (T := String) (P := String)
      (S := String) (V := String)).2.1 id (fun tps _ => tps)
    "https://www.youtube.com/watch?v=dQw4w9WgXcQ" "dQw4w9WgXcQ"
    Platform.youtube false none none none 200 200 200 200
    ⟨false, "t", none, none, none, none⟩ none none none none "raw" .aborted
    ⟨some ["tp"], some ["th"], none⟩ (some "sum") (by decide) (by decide) rfl
    (Or.inr (Or.inl rfl))
  have h3 := (transcript_fatal_metadata_optional (T := String) (P := String)
      (S := String) (V := String)).2.2.1 "BV1xx411c7mD" "timeout"
  exact ⟨h1.1, h1.2.1, h2.2.2.2.2, h3⟩

/-! ## Theme selection (`handleThemeSelect`, page.tsx lines 1187-1375)

`handleThemeSelect` is async: everything up to the `fetch` runs
synchronously (`handleThemeSelectStart`), and the rest runs when the
response settles (`handleThemeResolve`), in both cases against the shared
refs and view state current at that moment, while values captured by the
closure at call time travel in a `ThemePending` record.  The external
helpers (`hydrateTopicsWithTranscript`, the `needsHydration` probe and the
quote-key builder) are abstract parameters. -/

/-- JavaScript `Map.get`. -/
def mapGet {α : Type} (m : List (String × α)) (k : String) : Option α :=
  (m.find? (fun q => q.1 == k)).map (fun q => q.2)

/-- JavaScript `Map.set` / record spread-update. -/
def mapSet {α : Type} (m : List (String × α)) (k : String) (v : α) :
    List (String × α) :=
  if (m.find? (fun q => q.1 == k)).isSome then
    m.map (fun q => if q.1 == k then (k, v) else q)
  else m ++ [(k, v)]

/-- JavaScript `Map.delete`. -/
def mapRemove {α : Type} (m : List (String × α)) (k : String) :
    List (String × α) :=
  m.filter (fun q => !(q.1 == k))

/-- JavaScript `Set.add`. -/
def setAdd (s : List String) (x : String) : List String :=
  if x ∈ s then s else s ++ [x]

/-- JS `String.prototype.trim`: strips WhiteSpace and LineTerminator code
points (all covered by `jsWhitespace`) from both ends. -/
def jsTrim (s : String) : String :=
  ⟨((s.data.dropWhile jsWhitespace).reverse.dropWhile jsWhitespace).reverse⟩

/-- The page state and refs `handleThemeSelect` touches. -/
structure ThemeState (T P : Type) where
  videoId : Option String
  transcript : T
  baseTopics : List P
  topics : List P
  selectedTopic : Option P
  selectedTheme : Option String
  selectedThemeRef : Option String
  nextThemeRequestId : Nat
  activeThemeRequestId : Option Nat
  pendingThemeRequests : List (String × Nat)
  themeTopicsMap : List (String × List P)
  themeCandidateMap : List (String × List P)
  usedTopicKeys : List String
  isLoadingThemeTopics : Bool
  themeError : Option String
  isPlayingAll : Bool
  playAllIndex : Nat
  deriving DecidableEq, Repr

/-- The closure values a pending theme request carries into its
continuation. -/
structure ThemePending (T P : Type) where
  theme : String
  requestId : Nat
  capturedUsedKeys : List String
  capturedTranscript : T
  capturedBaseTopics : List P
  deriving DecidableEq, Repr

/-- `resetToDefault` (page.tsx lines 1190-1207); `baseTopics` is the
captured value of the invocation that runs it. -/
def resetToDefault {T P : Type} (keyOf : P → Option String)
    (preserveError : Bool) (capturedBaseTopics : List P)
    (s : ThemeState T P) : ThemeState T P :=
  { s with
    themeError := if preserveError then s.themeError else none
    selectedTheme := none
    selectedThemeRef := none
    topics := capturedBaseTopics
    selectedTopic := none
    isPlayingAll := false
    playAllIndex := 0
    isLoadingThemeTopics := false
    activeThemeRequestId := none
    usedTopicKeys := (capturedBaseTopics.filterMap keyOf).dedup }

/-- Lines 1341-1363: ensure a candidate entry for an empty result, then
apply the themed topics to view state — unless the currently selected theme
is no longer this one, in which case the response is discarded. -/
def applyThemeTail {T P : Type} (normalized : String) (tt : List P)
    (s : ThemeState T P) : ThemeState T P :=
  let s1 := if tt.isEmpty then
      { s with themeCandidateMap := (mapSet s.themeCandidateMap normalized
          ((mapGet s.themeCandidateMap normalized).getD [])) }
    else s
  if s1.selectedThemeRef ≠ some normalized then s1
  else if tt.isEmpty then
    { s1 with topics := tt
              themeError := some "此主题暂无可用精彩片段。"
              selectedTopic := none }
  else
    { s1 with topics := tt, selectedTopic := tt.head?, themeError := none }

/-- The synchronous phase of `handleThemeSelect` (lines 1187-1263): returns
the updated state and, when a fresh request was issued, its pending
record. -/
def handleThemeSelectStart {T P : Type} (hydrate : List P → T → List P)
    (needsHyd : List P → Bool) (keyOf : P → Option String)
    (themeLabel : Option String) (s : ThemeState T P) :
    ThemeState T P × Option (ThemePending T P) :=
  if s.videoId = none then (s, none)
  else
    match themeLabel with
    | none => (resetToDefault keyOf false s.baseTopics s, none)
    | some label =>
        let normalized := jsTrim label
        if normalized = "" then (resetToDefault keyOf false s.baseTopics s, none)
        else if s.selectedTheme = some normalized then
          (resetToDefault keyOf false s.baseTopics s, none)
        else
          let themedTopics0 := mapGet s.themeTopicsMap normalized
          let step : Option (List P) × ThemeState T P :=
            match themedTopics0 with
            | some tt =>
                if needsHyd tt then
                  let tt' := hydrate tt s.transcript
                  (some tt', { s with
                    themeTopicsMap := mapSet s.themeTopicsMap normalized tt' })
                else (some tt, s)
            | none => (none, s)
          let s2 := { step.2 with
            selectedTheme := some normalized
            selectedThemeRef := some normalized
            themeError := none
            selectedTopic := none
            isPlayingAll := false
            playAllIndex := 0 }
          match step.1 with
          | none =>
              match mapGet s.pendingThemeRequests normalized with
              | some pid =>
                  ({ s2 with activeThemeRequestId := some pid
                             isLoadingThemeTopics := true }, none)
              | none =>
                  let requestId := s.nextThemeRequestId + 1
                  ({ s2 with
                      nextThemeRequestId := requestId
                      pendingThemeRequests :=
                        mapSet s2.pendingThemeRequests normalized requestId
                      activeThemeRequestId := some requestId
                      isLoadingThemeTopics := true },
                   some ⟨normalized, requestId, s.usedTopicKeys, s.transcript,
                     s.baseTopics⟩)
          | some tt =>
              let s3 := { s2 with activeThemeRequestId := none
                                  isLoadingThemeTopics := false }
              (applyThemeTail normalized tt s3, none)

/-- Parsed OK-body of a theme-specific `/api/video-analysis` response. -/
structure ThemeDataBody (P : Type) where
  topics : Option (List P)
  topicCandidates : Option (List P)
  deriving DecidableEq, Repr

/-- Body of a theme-specific `/api/video-analysis` response. -/
structure ThemeRespBody (P : Type) where
  errJson : Option ApiErrorBody
  json : JsonParse (ThemeDataBody P)
  deriving DecidableEq, Repr

/-- Outcome of the theme-specific request. -/
inductive ThemeFetchOut (P : Type) where
  | netError (msg : String)
  | aborted
  | resp (ok : Bool) (body : ThemeRespBody P)
  deriving DecidableEq, Repr

/-- The `finally` block (lines 1325-1335). -/
def themeFinally {T P : Type} (pend : ThemePending T P) (st : ThemeState T P) :
    ThemeState T P :=
  let st1 := { st with
    pendingThemeRequests := mapRemove st.pendingThemeRequests pend.theme }
  if st1.activeThemeRequestId = some pend.requestId ∧
      st1.selectedThemeRef = some pend.theme then
    { st1 with isLoadingThemeTopics := false, activeThemeRequestId := none }
  else st1

/-- The catch block (lines 1307-1324): an abort returns silently; any other
error resets to the default topics (only if this theme is still selected)
and surfaces the message; the `finally` runs either way. -/
def themeErrorPath {T P : Type} (keyOf : P → Option String)
    (pend : ThemePending T P) (isAb : Bool) (msg : String)
    (s : ThemeState T P) : ThemeState T P :=
  if isAb then themeFinally pend s
  else
    themeFinally pend
      (if s.selectedThemeRef = some pend.theme then
        { resetToDefault keyOf true pend.capturedBaseTopics s with
            themeError := some msg }
      else s)

/-- The asynchronous phase of `handleThemeSelect` (lines 1266-1363), run
when the response for `pend` settles against the then-current state. -/
def handleThemeResolve {T P : Type} (hydrate : List P → T → List P)
    (keyOf : P → Option String) (pend : ThemePending T P)
    (out : ThemeFetchOut P) (s : ThemeState T P) : ThemeState T P :=
  match out with
  | .netError msg => themeErrorPath keyOf pend false msg s
  | .aborted => themeErrorPath keyOf pend true "" s
  | .resp ok body =>
      if ok then
        match body.json with
        | .parseFail isAb msg => themeErrorPath keyOf pend isAb msg s
        | .ok d =>
            let hydrated := hydrate (d.topics.getD []) pend.capturedTranscript
            let s1 := { s with themeCandidateMap :=
              (mapSet s.themeCandidateMap pend.theme
                (d.topicCandidates.getD [])) }
            let nextUsed := (hydrated.filterMap keyOf).foldl setAdd
              pend.capturedUsedKeys
            let s2 := { s1 with
              usedTopicKeys := nextUsed
              themeTopicsMap := mapSet s1.themeTopicsMap pend.theme hydrated }
            applyThemeTail pend.theme hydrated (themeFinally pend s2)
      else
        themeErrorPath keyOf pend false
          (buildApiErrorMessage (some (body.errJson.getD unknownErrorBody))
            "生成主题化主题失败") s

theorem themeFinally_topics {T P : Type} (pend : ThemePending T P)
    (st : ThemeState T P) :
    (themeFinally pend st).topics = st.topics ∧
    (themeFinally pend st).selectedThemeRef = st.selectedThemeRef ∧
    (themeFinally pend st).themeTopicsMap = st.themeTopicsMap ∧
    (themeFinally pend st).themeCandidateMap = st.themeCandidateMap := by
  unfold themeFinally
  dsimp only
  split <;> simp

theorem applyThemeTail_stale {T P : Type} (normalized : String) (tt : List P)
    (s : ThemeState T P) (h : s.selectedThemeRef ≠ some normalized) :
    (applyThemeTail normalized tt s).topics = s.topics := by
  unfold applyThemeTail
  dsimp only
  rw [if_pos]
  · split <;> rfl
  · split <;> exact h

theorem applyThemeTail_live {T P : Type} (normalized : String) (tt : List P)
    (s : ThemeState T P) (h : s.selectedThemeRef = some normalized) :
    (applyThemeTail normalized tt s).topics = tt := by
  unfold applyThemeTail
  dsimp only
  rw [if_neg]
  · split <;> rfl
  · split <;> simp [h]

/-- `applyThemeTail` never changes which theme is selected. -/
theorem applyThemeTail_ref {T P : Type} (normalized : String) (tt : List P)
    (s : ThemeState T P) :
    (applyThemeTail normalized tt s).selectedThemeRef = s.selectedThemeRef := by
  unfold applyThemeTail
  dsimp only
  split <;> first | rfl | (split <;> rfl)

/-- A settling response whose theme is no longer the selected one never
touches the displayed topics, whatever its outcome was. -/
theorem resolve_stale_topics {T P : Type} (hydrate : List P → T → List P)
    (keyOf : P → Option String) (pend : ThemePending T P)
    (out : ThemeFetchOut P) (s : ThemeState T P)
    (h : s.selectedThemeRef ≠ some pend.theme) :
    (handleThemeResolve hydrate keyOf pend out s).topics = s.topics := by
  have herr : ∀ (isAb : Bool) (msg : String),
      (themeErrorPath keyOf pend isAb msg s).topics = s.topics := by
    intro isAb msg
    unfold themeErrorPath
    cases isAb with
    | true => simpa using (themeFinally_topics pend s).1
    | false =>
        rw [if_neg (by simp)]
        rw [if_neg h]
        exact (themeFinally_topics pend s).1
  cases out with
  | netError msg => exact herr false msg
  | aborted => exact herr true ""
  | resp ok body =>
      cases ok with
      | false =>
          simp only [handleThemeResolve]
          rw [if_neg (by simp)]
          exact herr false _
      | true =>
          simp only [handleThemeResolve, if_true]
          match hj : body.json with
          | .parseFail isAb msg => exact herr isAb msg
          | .ok d =>
              dsimp only
              rw [applyThemeTail_stale _ _ _ (by
                rw [(themeFinally_topics pend _).2.1]
                exact h)]
              exact (themeFinally_topics pend _).1

/-- A successfully settling response whose theme is still the selected one
applies its hydrated topics to view state. -/
theorem resolve_success_topics {T P : Type} (hydrate : List P → T → List P)
    (keyOf : P → Option String) (pend : ThemePending T P)
    (e : Option ApiErrorBody) (d : ThemeDataBody P) (s : ThemeState T P)
    (h : s.selectedThemeRef = some pend.theme) :
    (handleThemeResolve hydrate keyOf pend (.resp true ⟨e, .ok d⟩) s).topics =
      hydrate (d.topics.getD []) pend.capturedTranscript := by
  simp only [handleThemeResolve, if_true]
  rw [applyThemeTail_live _ _ _ (by
    rw [(themeFinally_topics pend _).2.1]
    exact h)]

/-- A successfully settling response leaves the selected-theme ref alone. -/
theorem resolve_success_ref {T P : Type} (hydrate : List P → T → List P)
    (keyOf : P → Option String) (pend : ThemePending T P)
    (e : Option ApiErrorBody) (d : ThemeDataBody P) (s : ThemeState T P) :
    (handleThemeResolve hydrate keyOf pend
      (.resp true ⟨e, .ok d⟩) s).selectedThemeRef = s.selectedThemeRef := by
  simp only [handleThemeResolve, if_true]
  rw [applyThemeTail_ref, (themeFinally_topics pend _).2.1]

/-- When the synchronous phase issues a fresh request, the pending record
carries the normalized theme and the captured transcript, and that theme is
now the one held by `selectedThemeRef`. -/
theorem start_pending_spec {T P : Type} (hydrate : List P → T → List P)
    (needsHyd : List P → Bool) (keyOf : P → Option String) (label : String)
    (s s' : ThemeState T P) (p : ThemePending T P)
    (h : handleThemeSelectStart hydrate needsHyd keyOf (some label) s =
      (s', some p)) :
    p.theme = jsTrim label ∧ p.capturedTranscript = s.transcript ∧
    s'.selectedThemeRef = some (jsTrim label) := by
  unfold handleThemeSelectStart at h
  by_cases h1 : s.videoId = none
  · rw [if_pos h1] at h
    simp [Prod.ext_iff] at h
  · rw [if_neg h1] at h
    dsimp only at h
    by_cases h2 : jsTrim label = ""
    · rw [if_pos h2] at h
      simp [Prod.ext_iff] at h
    · rw [if_neg h2] at h
      by_cases h3 : s.selectedTheme = some (jsTrim label)
      · rw [if_pos h3] at h
        simp [Prod.ext_iff] at h
      · rw [if_neg h3] at h
        cases hm : mapGet s.themeTopicsMap (jsTrim label) with
        | some tt =>
            rw [hm] at h
            dsimp only at h
            by_cases hn : needsHyd tt
            · rw [if_pos hn] at h
              simp [Prod.ext_iff] at h
            · rw [if_neg hn] at h
              simp [Prod.ext_iff] at h
        | none =>
            rw [hm] at h
            dsimp only at h
            cases hp : mapGet s.pendingThemeRequests (jsTrim label) with
            | some pid =>
                rw [hp] at h
                simp [Prod.ext_iff] at h
            | none =>
                rw [hp] at h
                dsimp only at h
                simp only [Prod.ext_iff, Option.some_inj] at h
                obtain ⟨hs, hsome⟩ := h
                refine ⟨?_, ?_, ?_⟩
                · rw [← hsome]
                · rw [← hsome]
                · rw [← hs]

def c8State : ThemeState String String :=
  ⟨some "v", "tr", [], [], none, none, none, 0, none, [], [], [], [], false,
    none, false, 0⟩

def c8Hy : List String → String → List String := fun tps _ => tps

def c8Start : Option String → ThemeState String String →
    ThemeState String String × Option (ThemePending String String) :=
  handleThemeSelectStart c8Hy (fun _ => false) (fun _ => none)

def c8S1 : ThemeState String String := (c8Start (some "A") c8State).1

def c8S2 : ThemeState String String := (c8Start (some "B") c8S1).1

def c8PA : ThemePending String String := ⟨"A", 1, [], "tr", []⟩

def c8PB : ThemePending String String := ⟨"B", 2, [], "tr", []⟩

def c8Out : ThemeFetchOut String := .resp true ⟨none, .ok ⟨some ["tB"], none⟩⟩

def c8S3 : ThemeState String String :=
  handleThemeResolve c8Hy (fun _ => none) c8PB c8Out c8S2

/-- Claim C8: when two theme-selection requests are issued in sequence
(theme A, then theme B before A's response arrives), only the response
belonging to the currently active request is applied to the displayed
topics view state: B's successful response installs its hydrated topics,
and A's late-arriving response — whatever its outcome — is discarded and
never replaces B's topics. -/
theorem theme_select_last_wins {T P : Type} (hydrate : List P → T → List P)
    (needsHyd : List P → Bool) (keyOf : P → Option String)
    (s0 s1 s2 : ThemeState T P) (a b : String) (pA pB : ThemePending T P)
    (outA : ThemeFetchOut P) (eB : Option ApiErrorBody) (dB : ThemeDataBody P)
    (hab : jsTrim a ≠ jsTrim b)
    (h1 : handleThemeSelectStart hydrate needsHyd keyOf (some a) s0 =
      (s1, some pA))
    (h2 : handleThemeSelectStart hydrate needsHyd keyOf (some b) s1 =
      (s2, some pB)) :
    (handleThemeResolve hydrate keyOf pB (.resp true ⟨eB, .ok dB⟩) s2).topics =
      hydrate (dB.topics.getD []) pB.capturedTranscript ∧
    (handleThemeResolve hydrate keyOf pA outA
        (handleThemeResolve hydrate keyOf pB
          (.resp true ⟨eB, .ok dB⟩) s2)).topics =
      (handleThemeResolve hydrate keyOf pB
        (.resp true ⟨eB, .ok dB⟩) s2).topics := by
  obtain ⟨hpa, _, _⟩ := start_pending_spec _ _ _ _ _ _ _ h1
  obtain ⟨hpb, _, hs2ref⟩ := start_pending_spec _ _ _ _ _ _ _ h2
  have hlive : s2.selectedThemeRef = some pB.theme := by rw [hs2ref, hpb]
  refine ⟨resolve_success_topics _ _ _ _ _ _ hlive, ?_⟩
  apply resolve_stale_topics
  rw [resolve_success_ref, hs2ref, hpa]
  intro hcon
  rw [Option.some_inj] at hcon
  exact hab hcon.symm

theorem theme_select_last_wins_witness :
    c8S3.topics = ["tB"] ∧
    (handleThemeResolve c8Hy (fun _ => none) c8PA .aborted c8S3).topics =
      c8S3.topics := by
  have h := theme_select_last_wins c8Hy (fun _ => false) (fun _ => none)
    c8State c8S1 c8S2 "A" "B" c8PA c8PB .aborted none ⟨some ["tB"], none⟩
    (by decide) rfl rfl
  exact ⟨h.1, h.2⟩
